import Mathlib

/-!
Verification development for the Slurm job-statistics engine
(`ood_job_monitor/job_stats.py`).

Strings are modelled as `List Char` (`Str`), Python `float` values as exact
rationals (`Rat`; IEEE-754 rounding, `inf`/`nan` literals and `timedelta`'s
microsecond quantization / range limits are not modelled), Python `int` as
`Int`/`Nat`.  Functions that can raise an uncaught Python exception are
modelled in `Except Unit`.  External command execution (`_run_command`) is
modelled by passing the command's result — `(stdout, stderr, returncode)` —
as an explicit argument to the collectors.
-/

abbrev Str := List Char

/-- The whitespace characters recognised by Python's `str.strip` /
`str.split()` (ASCII subset). -/
def pyIsSpace (c : Char) : Bool :=
  c = ' ' || c = '\t' || c = '\n' || c = '\r' || c = '\x0b' || c = '\x0c'

/-- Python `str.strip()`: remove leading and trailing whitespace. -/
def pyStrip (s : Str) : Str :=
  ((s.dropWhile pyIsSpace).reverse.dropWhile pyIsSpace).reverse

/-- Python `str.upper()` (ASCII model). -/
def pyUpper (s : Str) : Str := s.map Char.toUpper

/-- Python `str.lower()` (ASCII model). -/
def pyLower (s : Str) : Str := s.map Char.toLower

/-- Python `str.split(sep)` for a one-character separator: such a split
always yields at least one (possibly empty) field. -/
def pySplit (sep : Char) : Str → List Str
  | [] => [[]]
  | c :: rest =>
    if c = sep then [] :: pySplit sep rest
    else
      match pySplit sep rest with
      | [] => [[c]]
      | r :: rs => (c :: r) :: rs

/-- Python `str.split(sep, 1)` restricted to the case `sep ∈ s`:
the part before the first separator and the part after it. -/
def pySplitOnce (sep : Char) (s : Str) : Str × Str :=
  (s.takeWhile (· ≠ sep), (s.dropWhile (· ≠ sep)).drop 1)

/-- Python substring containment `needle in hay`. -/
def pyIn (needle : Str) : Str → Bool
  | [] => needle.isPrefixOf []
  | c :: rest => needle.isPrefixOf (c :: rest) || pyIn needle rest

/-- Numeric value of a list of ASCII decimal digits (most significant first). -/
def digitsVal (s : Str) : Nat := s.foldl (fun a c => a * 10 + (c.toNat - 48)) 0

/-- Python `str.isdigit()` (ASCII model): nonempty and all digits. -/
def isPyDigits (s : Str) : Bool := !s.isEmpty && s.all Char.isDigit

/-- Longest digit prefix and the remainder. -/
def takeDigits (s : Str) : Str × Str := (s.takeWhile Char.isDigit, s.dropWhile Char.isDigit)

/-- Leading sign of a Python integer literal: `(negative?, rest)`. -/
def pyIntSign : Str → Bool × Str
  | '+' :: r => (false, r)
  | '-' :: r => (true, r)
  | r => (false, r)

/-- Model of Python `int(str)`: optional surrounding whitespace, an optional
sign, then one or more ASCII digits (underscore digit grouping is not
modelled).  `none` models a raised `ValueError`. -/
def pyInt? (s : Str) : Option Int :=
  let sg := pyIntSign (pyStrip s)
  if isPyDigits sg.2 then
    some (if sg.1 then -(digitsVal sg.2 : Int) else (digitsVal sg.2 : Int))
  else none

/-- Leading sign of a Python float literal: `(sign factor, rest)`. -/
def readSign : Str → Rat × Str
  | '+' :: r => (1, r)
  | '-' :: r => (-1, r)
  | r => (1, r)

/-- Fraction part of a Python float literal: the digits after a leading
decimal point, if any, and the remainder. -/
def readFrac : Str → Str × Str
  | '.' :: r => takeDigits r
  | r => ([], r)

/-- Model of Python `float(str)` restricted to finite decimal literals:
optional surrounding whitespace, optional sign, digits with at most one
decimal point and at least one digit, optional decimal exponent.  The value
is the exact rational (no IEEE-754 rounding); the special literals
`inf`/`infinity`/`nan` and underscore grouping are not modelled.  `none`
models a raised `ValueError`. -/
def pyFloat? (s : Str) : Option Rat :=
  let sg := readSign (pyStrip s)
  let a := (takeDigits sg.2).1
  let r1 := (takeDigits sg.2).2
  let b := (readFrac r1).1
  let r2 := (readFrac r1).2
  if a = [] ∧ b = [] then none
  else
    let mant : Rat := sg.1 * ((digitsVal a : Rat) + (digitsVal b : Rat) / (10 : Rat) ^ b.length)
    match r2 with
    | [] => some mant
    | 'e' :: r3 => pyFloatExp mant r3
    | 'E' :: r3 => pyFloatExp mant r3
    | _ => none
where
  /-- Exponent part of a Python float literal: optional sign then digits. -/
  pyFloatExp (mant : Rat) (r3 : Str) : Option Rat :=
    let p3 : Bool × Str :=
      match r3 with
      | '+' :: r => (true, r)
      | '-' :: r => (false, r)
      | r => (true, r)
    let e := (takeDigits p3.2).1
    let r4 := (takeDigits p3.2).2
    if e = [] ∨ r4 ≠ [] then none
    else some (if p3.1 then mant * (10 : Rat) ^ digitsVal e else mant / (10 : Rat) ^ digitsVal e)

/-- The exact rational denoted by a decimal numeral `⟨digits⟩.⟨digits⟩`
(either side possibly empty), read off from base-10 positional semantics. -/
def numeralVal (s : Str) : Rat :=
  let a := s.takeWhile (· ≠ '.')
  let b := (s.dropWhile (· ≠ '.')).drop 1
  (digitsVal a : Rat) + (digitsVal b : Rat) / (10 : Rat) ^ b.length

/-- A well-formed decimal numeral: only digits and points, at most one
point, at least one digit. -/
def isNumeralStr (s : Str) : Bool :=
  s.all (fun c => c.isDigit || c = '.') && decide (s.count '.' ≤ 1) && s.any Char.isDigit

/-! ## Datetimes (`datetime.strptime`, datetime arithmetic) -/

/-- A Python `datetime.datetime` value. -/
structure DateTime where
  year : Nat := 1
  month : Nat := 1
  day : Nat := 1
  hour : Nat := 0
  minute : Nat := 0
  second : Nat := 0
  microsecond : Nat := 0
deriving DecidableEq

/-- Gregorian leap year. -/
def isLeapYear (y : Nat) : Bool := (y % 4 == 0 && y % 100 != 0) || y % 400 == 0

/-- Number of days in a month. -/
def daysInMonth (y m : Nat) : Nat :=
  if m = 2 then (if isLeapYear y then 29 else 28)
  else if m = 4 ∨ m = 6 ∨ m = 9 ∨ m = 11 then 30
  else 31

/-- Exactly four decimal digits (the `%Y` directive). -/
def read4Digits : Str → Option (Nat × Str)
  | a :: b :: c :: d :: r =>
    if a.isDigit && b.isDigit && c.isDigit && d.isDigit then
      some (digitsVal [a, b, c, d], r)
    else none
  | _ => none

/-- One or two decimal digits, greedily (the `%m/%d/%H/%M/%S` directives). -/
def read12Digits : Str → Option (Nat × Str)
  | c1 :: c2 :: r =>
    if c1.isDigit then
      if c2.isDigit then some (digitsVal [c1, c2], r) else some (digitsVal [c1], c2 :: r)
    else none
  | [c1] => if c1.isDigit then some (digitsVal [c1], []) else none
  | [] => none

/-- Consume one expected literal character. -/
def expectChar (c : Char) : Str → Option Str
  | x :: r => if x = c then some r else none
  | [] => none

/-- Model of `datetime.strptime` for the patterns
`%Y-%m-%d⟨sep⟩%H:%M:%S` with optional `.%f` fraction, including the calendar
validation performed by the `datetime` constructor (`none` models the caught
`ValueError`). -/
def strptimeISO (sep : Char) (withFrac : Bool) (s : Str) : Option DateTime :=
  match read4Digits s with
  | none => none
  | some (y, r1) =>
    match expectChar '-' r1 with
    | none => none
    | some r2 =>
      match read12Digits r2 with
      | none => none
      | some (mo, r3) =>
        match expectChar '-' r3 with
        | none => none
        | some r4 =>
          match read12Digits r4 with
          | none => none
          | some (d, r5) =>
            match expectChar sep r5 with
            | none => none
            | some r6 => strptimeTail withFrac y mo d r6
where
  /-- The `%H:%M:%S[.%f]` tail of the pattern plus calendar validation. -/
  strptimeTail (withFrac : Bool) (y mo d : Nat) (r6 : Str) : Option DateTime :=
    match read12Digits r6 with
    | none => none
    | some (h, r7) =>
      match expectChar ':' r7 with
      | none => none
      | some r8 =>
        match read12Digits r8 with
        | none => none
        | some (mi, r9) =>
          match expectChar ':' r9 with
          | none => none
          | some r10 =>
            match read12Digits r10 with
            | none => none
            | some (sec, r11) =>
              match (if withFrac then
                  match expectChar '.' r11 with
                  | none => none
                  | some r =>
                    if (takeDigits r).1 = [] ∨ 6 < (takeDigits r).1.length then none
                    else some (digitsVal (takeDigits r).1 * 10 ^ (6 - (takeDigits r).1.length),
                      (takeDigits r).2)
                else some (0, r11) : Option (Nat × Str)) with
              | none => none
              | some (us, r12) =>
                if r12 = [] ∧ 1 ≤ y ∧ 1 ≤ mo ∧ mo ≤ 12 ∧ 1 ≤ d ∧ d ≤ daysInMonth y mo ∧
                    h ≤ 23 ∧ mi ≤ 59 ∧ sec ≤ 59 then
                  some ⟨y, mo, d, h, mi, sec, us⟩
                else none

/-- Days since 1970-01-01 of a Gregorian calendar date (days-from-civil). -/
def daysFromCivil (year month day : Int) : Int :=
  let y := if month ≤ 2 then year - 1 else year
  let era := (if 0 ≤ y then y else y - 399) / 400
  let yoe := y - era * 400
  let mp := (month + 9) % 12
  let doy := (153 * mp + 2) / 5 + day - 1
  let doe := yoe * 365 + yoe / 4 - yoe / 100 + doy
  era * 146097 + doe - 719468

/-- A datetime as exact seconds on a linear time axis (for subtraction). -/
def DateTime.toSeconds (t : DateTime) : Rat :=
  (daysFromCivil t.year t.month t.day : Rat) * 86400 + (t.hour : Rat) * 3600 +
    (t.minute : Rat) * 60 + (t.second : Rat) + (t.microsecond : Rat) / 1000000

/-- Python datetime subtraction, as a `timedelta` in exact seconds. -/
def dtSub (a b : DateTime) : Rat := a.toSeconds - b.toSeconds

/-! ## `JobState` -/

/-- Slurm job states (`class JobState(Enum)`). -/
inductive JobState where
  | PENDING
  | RUNNING
  | COMPLETED
  | FAILED
  | CANCELLED
  | TIMEOUT
  | NODE_FAIL
  | PREEMPTED
  | UNKNOWN
deriving DecidableEq

/-- The `value` string of each enum member. -/
def JobState.value : JobState → Str
  | .PENDING => "PENDING".data
  | .RUNNING => "RUNNING".data
  | .COMPLETED => "COMPLETED".data
  | .FAILED => "FAILED".data
  | .CANCELLED => "CANCELLED".data
  | .TIMEOUT => "TIMEOUT".data
  | .NODE_FAIL => "NODE_FAIL".data
  | .PREEMPTED => "PREEMPTED".data
  | .UNKNOWN => "UNKNOWN".data

/-- The first whitespace-delimited token of a string: `s.split()[0]`, with
`none` when `s.split()` is empty (in which case Python raises `IndexError`). -/
def firstWsToken (s : Str) : Option Str :=
  match s.dropWhile pyIsSpace with
  | [] => none
  | t => some (t.takeWhile (fun c => !pyIsSpace c))

/-- Enum lookup `cls(state_str)` with `ValueError` mapped to `UNKNOWN`. -/
def JobState.ofToken (t : Str) : JobState :=
  if t = "PENDING".data then .PENDING
  else if t = "RUNNING".data then .RUNNING
  else if t = "COMPLETED".data then .COMPLETED
  else if t = "FAILED".data then .FAILED
  else if t = "CANCELLED".data then .CANCELLED
  else if t = "TIMEOUT".data then .TIMEOUT
  else if t = "NODE_FAIL".data then .NODE_FAIL
  else if t = "PREEMPTED".data then .PREEMPTED
  else .UNKNOWN

/-- `JobState.from_string`: upper-case, take the first whitespace token
(raising `IndexError` — modelled as `.error ()` — when there is none), then
look the token up, defaulting to `UNKNOWN`. -/
def JobState.from_string (s : Str) : Except Unit JobState :=
  match firstWsToken (pyUpper s) with
  | none => .error ()
  | some t => .ok (JobState.ofToken t)

/-- `JobState.is_running`. -/
def JobState.is_running (s : JobState) : Bool := s = .RUNNING

/-- `JobState.is_completed`. -/
def JobState.is_completed (s : JobState) : Bool :=
  s = .COMPLETED || s = .FAILED || s = .CANCELLED || s = .TIMEOUT ||
    s = .NODE_FAIL || s = .PREEMPTED

/-- `JobState.is_successful`. -/
def JobState.is_successful (s : JobState) : Bool := s = .COMPLETED

/-! ## Metrics data model -/

/-- GPU utilization metrics (`@dataclass GPUMetrics`). -/
structure GPUMetrics where
  gpu_id : Int := 0
  gpu_name : Str := []
  utilization : Rat := 0
  memory_used : Rat := 0
  memory_total : Rat := 0
  memory_utilization : Rat := 0
deriving DecidableEq

/-- `GPUMetrics.memory_used_gb`. -/
def GPUMetrics.memory_used_gb (g : GPUMetrics) : Rat := g.memory_used / 1024 ^ 3

/-- `GPUMetrics.memory_total_gb`. -/
def GPUMetrics.memory_total_gb (g : GPUMetrics) : Rat := g.memory_total / 1024 ^ 3

/-- Per-node metrics (`@dataclass NodeMetrics`). -/
structure NodeMetrics where
  hostname : Str := []
  cpus_allocated : Nat := 0
  memory_allocated : Rat := 0
  cpu_time_used : Rat := 0
  memory_used : Rat := 0
  memory_max : Rat := 0
  gpus : List GPUMetrics := []
deriving DecidableEq

/-- Complete job metrics (`@dataclass JobMetrics`).  `timedelta` fields are
modelled as exact seconds (`Rat`); nullable datetimes as `Option DateTime`. -/
structure JobMetrics where
  job_id : Str := []
  job_name : Str := []
  user : Str := []
  state : JobState := .UNKNOWN
  submit_time : Option DateTime := none
  start_time : Option DateTime := none
  end_time : Option DateTime := none
  elapsed_time : Rat := 0
  time_limit : Rat := 0
  num_nodes : Nat := 0
  num_cpus : Nat := 0
  num_gpus : Nat := 0
  memory_requested : Rat := 0
  partition : Str := []
  cpu_time_total : Rat := 0
  cpu_efficiency : Rat := 0
  memory_used_max : Rat := 0
  memory_used_avg : Rat := 0
  memory_efficiency : Rat := 0
  gpu_utilization_avg : Rat := 0
  gpu_memory_utilization_avg : Rat := 0
  gpu_metrics : List GPUMetrics := []
  node_metrics : List NodeMetrics := []
  last_updated : Option DateTime := none
  error_message : Option Str := none
deriving DecidableEq

/-- `JobMetrics.elapsed_seconds` (`elapsed_time.total_seconds()`). -/
def JobMetrics.elapsed_seconds (m : JobMetrics) : Rat := m.elapsed_time

/-- `JobMetrics.time_limit_seconds` (`time_limit.total_seconds()`). -/
def JobMetrics.time_limit_seconds (m : JobMetrics) : Rat := m.time_limit

/-- `JobMetrics.time_efficiency`: percentage of the time limit used, `0`
for a non-positive limit. -/
def JobMetrics.time_efficiency (m : JobMetrics) : Rat :=
  if m.time_limit_seconds ≤ 0 then 0
  else m.elapsed_seconds / m.time_limit_seconds * 100

/-- `JobMetrics.memory_requested_gb`. -/
def JobMetrics.memory_requested_gb (m : JobMetrics) : Rat := m.memory_requested / 1024 ^ 3

/-- `JobMetrics.memory_used_max_gb`. -/
def JobMetrics.memory_used_max_gb (m : JobMetrics) : Rat := m.memory_used_max / 1024 ^ 3

/-- `JobMetrics.has_gpus`. -/
def JobMetrics.has_gpus (m : JobMetrics) : Bool := 0 < m.num_gpus

/-- `JobMetrics.calculate_efficiency`: derive CPU efficiency (clamped),
memory efficiency (clamped) and the GPU utilization averages in place. -/
def JobMetrics.calculate_efficiency (m : JobMetrics) : JobMetrics :=
  let m1 :=
    if 0 < m.elapsed_seconds ∧ 0 < m.num_cpus then
      let max_cpu_time := m.elapsed_seconds * (m.num_cpus : Rat)
      { m with cpu_efficiency := min 100 (max 0 (m.cpu_time_total / max_cpu_time * 100)) }
    else m
  let m2 :=
    if 0 < m1.memory_requested then
      { m1 with
        memory_efficiency := min 100 (max 0 (m1.memory_used_max / m1.memory_requested * 100)) }
    else m1
  if m2.gpu_metrics ≠ [] then
    { m2 with
      gpu_utilization_avg :=
        (m2.gpu_metrics.map GPUMetrics.utilization).sum / (m2.gpu_metrics.length : Rat),
      gpu_memory_utilization_avg :=
        (m2.gpu_metrics.map GPUMetrics.memory_utilization).sum / (m2.gpu_metrics.length : Rat) }
  else m2

/-! ## Field parsers (`JobStats._parse_*`) -/

/-- Multiplier table `multipliers.get(suffix, 1)`. -/
def memMultiplier : Option Char → Rat
  | some 'K' => 1024
  | some 'M' => 1024 ^ 2
  | some 'G' => 1024 ^ 3
  | some 'T' => 1024 ^ 4
  | _ => 1

/-- Model of `re.match(r'^([\d.]+)([KMGT]?)$', t)`: the numeral group and
the optional suffix group. -/
def memRegexMatch (t : Str) : Option (Str × Option Char) :=
  match t.getLast? with
  | none => none
  | some c =>
    if c = 'K' ∨ c = 'M' ∨ c = 'G' ∨ c = 'T' then
      let front := t.dropLast
      if front ≠ [] ∧ front.all (fun x => x.isDigit || x = '.') then some (front, some c)
      else none
    else if t.all (fun x => x.isDigit || x = '.') then some (t, none)
    else none

/-- `JobStats._parse_memory`: Slurm memory string to bytes.  In the branch
where the size regex matches, `float(match.group(1))` is *outside* the
`try`, so a group such as `"."` raises an uncaught `ValueError`
(`.error ()`); in the fallback branch a `ValueError` is caught and `0.0`
returned. -/
def _parse_memory (s : Str) : Except Unit Rat :=
  if s = [] then .ok 0
  else
    let t := pyUpper (pyStrip s)
    match memRegexMatch t with
    | some (num, suffix) =>
      match pyFloat? num with
      | some v => .ok (v * memMultiplier suffix)
      | none => .error ()
    | none =>
      match pyFloat? t with
      | some v => .ok v
      | none => .ok 0

/-- `JobStats._parse_time`: Slurm duration string to a `timedelta`, modelled
as exact seconds.  `int(days_part)` is outside the `try`, so a malformed day
part raises an uncaught `ValueError` (`.error ()`); a `ValueError` in the
colon-group conversions is caught and a zero duration returned (discarding
any day count). -/
def _parse_time (s : Str) : Except Unit Rat :=
  if s = [] then .ok 0
  else
    let t := pyStrip s
    let dres : Except Unit (Int × Str) :=
      if '-' ∈ t then
        match pyInt? (pySplitOnce '-' t).1 with
        | some n => .ok (n, (pySplitOnce '-' t).2)
        | none => .error ()
      else .ok (0, t)
    match dres with
    | .error e => .error e
    | .ok (days, t2) =>
      match pySplit ':' t2 with
      | [p1, p2, p3] =>
        match pyFloat? p1, pyFloat? p2, pyFloat? p3 with
        | some h, some mi, some sec =>
          .ok ((days : Rat) * 86400 + h * 3600 + mi * 60 + sec)
        | _, _, _ => .ok 0
      | [p1, p2] =>
        match pyFloat? p1, pyFloat? p2 with
        | some mi, some sec => .ok ((days : Rat) * 86400 + mi * 60 + sec)
        | _, _ => .ok 0
      | [p1] =>
        match pyFloat? p1 with
        | some sec => .ok ((days : Rat) * 86400 + sec)
        | none => .ok 0
      | _ => .ok 0

/-- `JobStats._parse_datetime`: sentinel strings and the empty string map to
`none`; otherwise the three `strptime` formats are tried in order. -/
def _parse_datetime (s : Str) : Option DateTime :=
  if s = [] ∨ s = "Unknown".data ∨ s = "None".data ∨ s = "N/A".data then none
  else
    let t := pyStrip s
    match strptimeISO 'T' false t with
    | some d => some d
    | none =>
      match strptimeISO ' ' false t with
      | some d => some d
      | none => strptimeISO 'T' true t

/-- `JobStats._parse_cpu_time`: `_parse_time(...).total_seconds()`. -/
def _parse_cpu_time (s : Str) : Except Unit Rat := _parse_time s

/-! ## Command results and the GRES GPU-count regex -/

/-- The result of `JobStats._run_command`: `(stdout, stderr, returncode)`.
Command execution itself is external; the collectors receive the result. -/
structure CmdResult where
  stdout : Str := []
  stderr : Str := []
  rc : Int := 0
deriving DecidableEq

/-- Characters matched by `[:\w]` (ASCII model of `\w`). -/
def isWordColon (c : Char) : Bool := c.isAlphanum || c = '_' || c = ':'

/-- Matching of `[:\w]*:(\d+)` inside a maximal `[:\w]` run, preferring the
rightmost colon that is followed by a digit (the greedy `[:\w]*` with
backtracking), with the digit group taken maximally. -/
def runColonDigits : Str → Option Nat
  | [] => none
  | c :: rest =>
    match runColonDigits rest with
    | some v => some v
    | none =>
      if c = ':' then
        let d := (takeDigits rest).1
        if d ≠ [] then some (digitsVal d) else none
      else none

/-- Model of `re.search(r'gpu[:\w]*:(\d+)', s)`: scan for the leftmost
position where the pattern matches and return the captured digit group. -/
def gpuSearch : Str → Option Nat
  | [] => none
  | c :: rest =>
    if "gpu".data.isPrefixOf (c :: rest) then
      match runColonDigits (((c :: rest).drop 3).takeWhile isWordColon) with
      | some v => some v
      | none => gpuSearch rest
    else gpuSearch rest

/-- The GPU count taken from a GRES / AllocGRES string: guarded by
`'gpu' in gres.lower()`, then the regex search; no match leaves the previous
count (always `0` at the call sites). -/
def gresGpuCount (gres : Str) (prev : Nat) : Nat :=
  if pyIn "gpu".data (pyLower gres) then
    match gpuSearch (pyLower gres) with
    | some v => v
    | none => prev
  else prev

/-! ## Historical collector (`JobStats.get_completed_job_stats`) -/

/-- The record id of an accounting line: its first pipe-delimited field. -/
def recordId (line : Str) : Str := (pySplit '|' line).headD []

/-- The line-selection loop of `get_completed_job_stats`: walk all lines,
remembering (last wins) the split fields of the line whose id equals the job
id — or goes to the batch slot when the id contains `.batch` — and of the
line whose id is the job id suffixed `.batch`. -/
def selectMainBatch (jobId : Str) (lines : List Str) :
    Option (List Str) × Option (List Str) :=
  lines.foldl
    (fun acc line =>
      let parts := pySplit '|' line
      if parts ≠ [] then
        let step_id := parts.headD []
        if step_id = jobId ∨ step_id = jobId ++ ".batch".data then
          if pyIn ".batch".data step_id then (acc.1, some parts) else (some parts, acc.2)
        else acc
      else acc)
    (none, none)

/-- The main line actually used: the selected exact-match line, or the first
returned line when there is none. -/
def mainLineOf (jobId : Str) (lines : List Str) : List Str :=
  match (selectMainBatch jobId lines).1 with
  | some m => m
  | none => pySplit '|' (lines.headD [])

/-- The source of the peak-memory / total-CPU-time fields: the batch line
when present with at least 15 fields, else the main line. -/
def batchOrMain (main : List Str) : Option (List Str) → List Str
  | some b => if 15 ≤ b.length then b else main
  | none => main

/-- Node count parsed from the main line (`int(main_line[9])` when it is a
digit string, else `1`). -/
def completedNumNodes (main : List Str) : Nat :=
  if isPyDigits (main.getD 9 []) then digitsVal (main.getD 9 []) else 1

/-- CPU count parsed from the main line. -/
def completedNumCpus (main : List Str) : Nat :=
  if isPyDigits (main.getD 10 []) then digitsVal (main.getD 10 []) else 1

/-- The requested-memory multiplier: node count for a trailing `n`, CPU
count for a trailing `c`, else `1`. -/
def reqMemMult (main : List Str) : Nat :=
  if (main.getD 11 []).getLast? = some 'n' then completedNumNodes main
  else if (main.getD 11 []).getLast? = some 'c' then completedNumCpus main
  else 1

/-- The requested-memory string with a trailing `n`/`c` suffix removed. -/
def reqMemStr (main : List Str) : Str :=
  if (main.getD 11 []).getLast? = some 'n' then (main.getD 11 []).dropLast
  else if (main.getD 11 []).getLast? = some 'c' then (main.getD 11 []).dropLast
  else main.getD 11 []

/-- The AllocGRES field: `main_line[16] if len(main_line) > 16 else ""`. -/
def allocGresStr (main : List Str) : Str :=
  if 16 < main.length then main.getD 16 [] else []

/-- The field-population step of `get_completed_job_stats` after line
selection: parse identity / allocation / time fields from the main line,
peak-memory and CPU-time from the batch line when usable, then apply
`calculate_efficiency`.  A main line with fewer than 18 fields yields
`none` (job not found). -/
def buildCompleted (jobId : Str) (now : DateTime) (main : List Str)
    (batch : Option (List Str)) : Except Unit (Option JobMetrics) :=
  if main.length < 18 then .ok none
  else
    match JobState.from_string (main.getD 3 []) with
    | .error e => .error e
    | .ok st =>
      match _parse_time (main.getD 7 []) with
      | .error e => .error e
      | .ok elapsed =>
        match _parse_time (main.getD 8 []) with
        | .error e => .error e
        | .ok tlimit =>
          match _parse_memory (reqMemStr main) with
          | .error e => .error e
          | .ok reqMem =>
            match _parse_memory ((batchOrMain main batch).getD 12 []) with
            | .error e => .error e
            | .ok memMax =>
              match _parse_cpu_time ((batchOrMain main batch).getD 14 []) with
              | .error e => .error e
              | .ok cpuTot =>
                let m : JobMetrics :=
                  { job_id := jobId
                    last_updated := some now
                    job_name := main.getD 1 []
                    user := main.getD 2 []
                    state := st
                    submit_time := _parse_datetime (main.getD 4 [])
                    start_time := _parse_datetime (main.getD 5 [])
                    end_time := _parse_datetime (main.getD 6 [])
                    elapsed_time := elapsed
                    time_limit := tlimit
                    num_nodes := completedNumNodes main
                    num_cpus := completedNumCpus main
                    memory_requested := reqMem * (reqMemMult main : Rat)
                    partition := main.getD 15 []
                    num_gpus := gresGpuCount (allocGresStr main) 0
                    memory_used_max := memMax
                    cpu_time_total := cpuTot }
                .ok (some m.calculate_efficiency)

/-- `JobStats.get_completed_job_stats`: a failed query or empty output is
"job not found" (`none`); otherwise split the output into lines, select the
main / batch records and populate the metrics. -/
def get_completed_job_stats (jobId : Str) (now : DateTime) (res : CmdResult) :
    Except Unit (Option JobMetrics) :=
  if res.rc ≠ 0 ∨ pyStrip res.stdout = [] then .ok none
  else
    let lines := pySplit '\n' (pyStrip res.stdout)
    buildCompleted jobId now (mainLineOf jobId lines) (selectMainBatch jobId lines).2

/-! ## Live collector (`JobStats.get_running_job_stats`) -/

/-- The squeue-population step (the `len(parts) >= 11` branch): identity,
allocation and memory fields from the pipe-delimited squeue line; elapsed
time is `now - start_time` and the limit `elapsed + time_left` when a start
time is known. -/
def populateFromSqueue (m : JobMetrics) (now : DateTime) (parts : List Str) :
    Except Unit JobMetrics :=
  match JobState.from_string (parts.getD 2 []) with
  | .error e => .error e
  | .ok st =>
    match _parse_time (parts.getD 5 []) with
    | .error e => .error e
    | .ok time_left =>
      match _parse_memory (parts.getD 9 []) with
      | .error e => .error e
      | .ok mem =>
        let start := _parse_datetime (parts.getD 4 [])
        let et : Rat × Rat :=
          match start with
          | some stT => ((dtSub now stT), dtSub now stT + time_left)
          | none => (m.elapsed_time, m.time_limit)
        .ok { m with
              job_name := parts.getD 0 []
              user := parts.getD 1 []
              state := st
              submit_time := _parse_datetime (parts.getD 3 [])
              start_time := start
              num_nodes := if isPyDigits (parts.getD 6 []) then digitsVal (parts.getD 6 []) else 1
              num_cpus := if isPyDigits (parts.getD 7 []) then digitsVal (parts.getD 7 []) else 1
              num_gpus := gresGpuCount (parts.getD 8 []) m.num_gpus
              memory_requested := mem
              partition := parts.getD 10 []
              elapsed_time := et.1
              time_limit := et.2 }

/-- The inner sstat line scan: the first line with at least 5 fields
populates CPU time and peak memory; with no such line nothing is set (the
outer suffix loop still stops). -/
def sstatPopulate (m : JobMetrics) (lines : List Str) : Except Unit JobMetrics :=
  match lines.find? (fun l => decide (5 ≤ (pySplit '|' l).length)) with
  | some l =>
    let parts := pySplit '|' l
    match _parse_cpu_time (parts.getD 1 []) with
    | .error e => .error e
    | .ok ct =>
      match _parse_memory (parts.getD 2 []) with
      | .error e => .error e
      | .ok mm => .ok { m with cpu_time_total := ct, memory_used_max := mm }
  | none => .ok m

/-- The step-suffix cascade: try each suffix in order and stop at the first
sstat call that returns usable output. -/
def sstatTry (jobId : Str) (m : JobMetrics) (sstat : Str → CmdResult) :
    List Str → Except Unit JobMetrics
  | [] => .ok m
  | suf :: rest =>
    let r := sstat (jobId ++ suf)
    if r.rc = 0 ∧ pyStrip r.stdout ≠ [] then
      sstatPopulate m (pySplit '\n' (pyStrip r.stdout))
    else sstatTry jobId m sstat rest

/-- `JobStats.get_running_job_stats`: no squeue data means "job not found"
(`none`); a squeue line with at least 11 fields populates the metadata; the
sstat cascade then fills consumption, and `calculate_efficiency` finalises. -/
def get_running_job_stats (jobId : Str) (now : DateTime) (squeueRes : CmdResult)
    (sstat : Str → CmdResult) : Except Unit (Option JobMetrics) :=
  let metrics : JobMetrics := { job_id := jobId, state := .RUNNING, last_updated := some now }
  if squeueRes.rc ≠ 0 ∨ pyStrip squeueRes.stdout = [] then .ok none
  else
    let parts := pySplit '|' (pyStrip squeueRes.stdout)
    match (if 11 ≤ parts.length then populateFromSqueue metrics now parts else .ok metrics) with
    | .error e => .error e
    | .ok m1 =>
      match sstatTry jobId m1 sstat [[], ".batch".data, ".0".data] with
      | .error e => .error e
      | .ok m2 => .ok (some m2.calculate_efficiency)

/-! ## Decidability of result comparisons -/

instance {ε α : Type} [DecidableEq ε] [DecidableEq α] : DecidableEq (Except ε α) := fun a b =>
  match a, b with
  | .ok x, .ok y => if h : x = y then .isTrue (by rw [h]) else .isFalse (by simp [h])
  | .error x, .error y => if h : x = y then .isTrue (by rw [h]) else .isFalse (by simp [h])
  | .ok _, .error _ => .isFalse (by simp)
  | .error _, .ok _ => .isFalse (by simp)

/-! ## Supporting lemmas: characters, stripping, splitting -/

theorem digit_val_bounds {c : Char} (h : c.isDigit = true) :
    48 ≤ c.val.toBitVec.toNat ∧ c.val.toBitVec.toNat ≤ 57 := by
  simp only [Char.isDigit, decide_eq_true_eq, Bool.and_eq_true, ge_iff_le,
    UInt32.le_def, BitVec.le_def] at h
  obtain ⟨h1, h2⟩ := h
  have e48 : ((48 : UInt32).toBitVec).toNat = 48 := rfl
  have e57 : ((57 : UInt32).toBitVec).toNat = 57 := rfl
  rw [e48] at h1
  rw [e57] at h2
  exact ⟨h1, h2⟩

theorem digit_toUpper {c : Char} (h : c.isDigit = true) : c.toUpper = c := by
  obtain ⟨h1, h2⟩ := digit_val_bounds h
  simp only [Char.toUpper, Char.toNat, UInt32.toNat]
  rw [if_neg]
  omega

theorem digit_not_space {c : Char} (h : c.isDigit = true) : pyIsSpace c = false := by
  obtain ⟨h1, h2⟩ := digit_val_bounds h
  simp only [pyIsSpace, Bool.or_eq_false_iff, decide_eq_false_iff_not]
  refine ⟨⟨⟨⟨⟨?_, ?_⟩, ?_⟩, ?_⟩, ?_⟩, ?_⟩ <;> (rintro rfl; revert h1 h2; decide)

theorem digit_ne_special {c : Char} (h : c.isDigit = true) :
    c ≠ ':' ∧ c ≠ '-' ∧ c ≠ '.' ∧ c ≠ '+' ∧ c ≠ 'e' ∧ c ≠ 'E' ∧ c ≠ '\n' ∧ c ≠ '|' := by
  obtain ⟨h1, h2⟩ := digit_val_bounds h
  refine ⟨?_, ?_, ?_, ?_, ?_, ?_, ?_, ?_⟩ <;> (rintro rfl; revert h1 h2; decide)

/-- Character facts for the numeral class (digit or point). -/
theorem numChar_facts {c : Char} (h : c.isDigit = true ∨ c = '.') :
    c.toUpper = c ∧ pyIsSpace c = false ∧ c ≠ ':' ∧ c ≠ '-' ∧ c ≠ '+' ∧
      c ≠ 'K' ∧ c ≠ 'M' ∧ c ≠ 'G' ∧ c ≠ 'T' ∧ c ≠ '\n' ∧ c ≠ '|' := by
  rcases h with h | rfl
  · obtain ⟨h1, h2⟩ := digit_val_bounds h
    refine ⟨digit_toUpper h, digit_not_space h, ?_, ?_, ?_, ?_, ?_, ?_, ?_, ?_, ?_⟩ <;>
      (rintro rfl; revert h1 h2; decide)
  · refine ⟨by decide, by decide, by decide, by decide, by decide, by decide, by decide,
      by decide, by decide, by decide, by decide⟩

theorem dropWhile_eq_self {p : Char → Bool} {l : Str} (h : ∀ c ∈ l, p c = false) :
    l.dropWhile p = l := by
  cases l with
  | nil => rfl
  | cons x xs => simp [List.dropWhile_cons, h x (List.mem_cons_self x xs)]

theorem pyStrip_eq_self {s : Str} (h : ∀ c ∈ s, pyIsSpace c = false) : pyStrip s = s := by
  unfold pyStrip
  rw [dropWhile_eq_self h, dropWhile_eq_self (fun c hc => h c (List.mem_reverse.mp hc)),
    List.reverse_reverse]

theorem pyUpper_eq_self {s : Str} (h : ∀ c ∈ s, c.toUpper = c) : pyUpper s = s := by
  unfold pyUpper
  induction s with
  | nil => rfl
  | cons c rest ih =>
    rw [List.map_cons, h c (List.mem_cons_self c rest),
      ih fun x hx => h x (List.mem_cons_of_mem c hx)]

theorem pySplit_ne_nil (sep : Char) (s : Str) : pySplit sep s ≠ [] := by
  induction s with
  | nil => simp [pySplit]
  | cons c rest ih =>
    by_cases hc : c = sep
    · simp [pySplit, hc]
    · simp only [pySplit, if_neg hc]
      cases hr : pySplit sep rest with
      | nil => simp
      | cons r rs => simp

theorem pySplit_of_not_mem {sep : Char} {s : Str} (h : sep ∉ s) : pySplit sep s = [s] := by
  induction s with
  | nil => rfl
  | cons c rest ih =>
    have hc : c ≠ sep := fun hcc => h (hcc ▸ List.mem_cons_self c rest)
    have hrest : sep ∉ rest := fun hm => h (List.mem_cons_of_mem c hm)
    simp only [pySplit, if_neg hc, ih hrest]

theorem pySplit_append {sep : Char} {xs : Str} (ys : Str) (h : sep ∉ xs) :
    pySplit sep (xs ++ sep :: ys) = xs :: pySplit sep ys := by
  induction xs with
  | nil => simp [pySplit]
  | cons c rest ih =>
    have hc : c ≠ sep := fun hcc => h (hcc ▸ List.mem_cons_self c rest)
    have hrest : sep ∉ rest := fun hm => h (List.mem_cons_of_mem c hm)
    simp only [List.cons_append, pySplit, if_neg hc, List.append_eq, ih hrest]

theorem takeDigits_all {s : Str} (h : ∀ c ∈ s, c.isDigit = true) :
    takeDigits s = (s, []) := by
  unfold takeDigits
  rw [List.takeWhile_eq_self_iff.mpr h, List.dropWhile_eq_nil_iff.mpr h]

/-! ## Supporting lemmas: numerals and the float/int models -/

theorem isNumeralStr_parts {s : Str} (h : isNumeralStr s = true) :
    (∀ c ∈ s, c.isDigit = true ∨ c = '.') ∧ s.count '.' ≤ 1 ∧ ∃ c ∈ s, c.isDigit = true := by
  simp only [isNumeralStr, Bool.and_eq_true, List.all_eq_true, List.any_eq_true,
    decide_eq_true_eq, Bool.or_eq_true] at h
  exact ⟨h.1.1, h.1.2, h.2⟩

theorem takeWhile_append_stop {p : Char → Bool} {a : Str} (x : Char) (b : Str)
    (ha : ∀ c ∈ a, p c = true) (hx : p x = false) :
    (a ++ x :: b).takeWhile p = a ∧ (a ++ x :: b).dropWhile p = x :: b := by
  induction a with
  | nil => simp [List.takeWhile_cons, List.dropWhile_cons, hx]
  | cons c rest ih =>
    have hc : p c = true := ha c (List.mem_cons_self c rest)
    have ihr := ih fun y hy => ha y (List.mem_cons_of_mem c hy)
    simp only [List.cons_append, List.takeWhile_cons, List.dropWhile_cons, hc, if_pos]
    exact ⟨by rw [ihr.1], by rw [ihr.2]⟩

theorem split_at_first {p : Char → Bool} {s : Str} (h : s.dropWhile p ≠ []) :
    ∃ x tl, s = s.takeWhile p ++ x :: tl ∧ p x = false ∧
      s.dropWhile p = x :: tl ∧ ∀ c ∈ s.takeWhile p, p c = true := by
  induction s with
  | nil => simp at h
  | cons c rest ih =>
    by_cases hc : p c = true
    · rw [List.dropWhile_cons, if_pos hc] at h
      obtain ⟨x, tl, h1, h2, h3, h4⟩ := ih h
      refine ⟨x, tl, ?_, h2, ?_, ?_⟩
      · rw [List.takeWhile_cons, if_pos hc, List.cons_append, ← h1]
      · rw [List.dropWhile_cons, if_pos hc, h3]
      · intro y hy
        rw [List.takeWhile_cons, if_pos hc] at hy
        rcases List.mem_cons.mp hy with rfl | hy
        · exact hc
        · exact h4 y hy
    · have hc2 : p c = false := by simpa using hc
      refine ⟨c, rest, ?_, hc2, ?_, ?_⟩
      · rw [List.takeWhile_cons, if_neg (by simp [hc2]), List.nil_append]
      · rw [List.dropWhile_cons, if_neg (by simp [hc2])]
      · intro y hy
        rw [List.takeWhile_cons, if_neg (by simp [hc2])] at hy
        exact absurd hy (List.not_mem_nil y)

/-- Shape of a well-formed numeral: all digits, or digits-point-digits. -/
theorem numeral_shape {s : Str} (h : isNumeralStr s = true) :
    ((∀ c ∈ s, c.isDigit = true) ∧ s ≠ []) ∨
      (∃ a b, s = a ++ '.' :: b ∧ (∀ c ∈ a, c.isDigit = true) ∧
        (∀ c ∈ b, c.isDigit = true) ∧ (a ≠ [] ∨ b ≠ [])) := by
  obtain ⟨hchars, hcount, cd, hcd, hcddig⟩ := isNumeralStr_parts h
  by_cases hdot : '.' ∈ s
  · right
    have hdne : s.dropWhile (fun c => decide (c ≠ '.')) ≠ [] := by
      intro hnil
      rw [List.dropWhile_eq_nil_iff] at hnil
      have := hnil '.' hdot
      simp at this
    obtain ⟨x, tl, hs, hx, _, htw⟩ := split_at_first hdne
    have hxdot : x = '.' := by simpa using hx
    subst hxdot
    set a := s.takeWhile (fun c => decide (c ≠ '.')) with ha_def
    have hcount2 : a.count '.' = 0 ∧ tl.count '.' = 0 := by
      rw [hs, List.count_append, List.count_cons_self] at hcount
      omega
    have hadig : ∀ c ∈ a, c.isDigit = true := by
      intro c hc
      rcases hchars c (hs ▸ List.mem_append_left _ hc) with hd | rfl
      · exact hd
      · have := htw '.' hc
        simp at this
    have htldig : ∀ c ∈ tl, c.isDigit = true := by
      intro c hc
      rcases hchars c (hs ▸ List.mem_append_right _ (List.mem_cons_of_mem _ hc)) with hd | rfl
      · exact hd
      · exact absurd hc (List.count_eq_zero.mp hcount2.2)
    refine ⟨a, tl, hs, hadig, htldig, ?_⟩
    have hcd2 := hs ▸ hcd
    rcases List.mem_append.mp hcd2 with hca | hcb
    · exact Or.inl (List.ne_nil_of_mem hca)
    · rcases List.mem_cons.mp hcb with rfl | hcb
      · simp [Char.isDigit] at hcddig
      · exact Or.inr (List.ne_nil_of_mem hcb)
  · left
    refine ⟨?_, List.ne_nil_of_mem hcd⟩
    intro c hc
    rcases hchars c hc with hd | rfl
    · exact hd
    · exact absurd hc hdot

theorem readSign_eq_self {s : Str} (h : ∀ c r, s = c :: r → c ≠ '+' ∧ c ≠ '-') :
    readSign s = (1, s) := by
  rw [readSign.eq_def]
  split
  · exact absurd rfl (h _ _ rfl).1
  · exact absurd rfl (h _ _ rfl).2
  · rfl

theorem pyIntSign_eq_self {s : Str} (h : ∀ c r, s = c :: r → c ≠ '+' ∧ c ≠ '-') :
    pyIntSign s = (false, s) := by
  rw [pyIntSign.eq_def]
  split
  · exact absurd rfl (h _ _ rfl).1
  · exact absurd rfl (h _ _ rfl).2
  · rfl

theorem readFrac_of_ne_dot {s : Str} (h : ∀ r, s ≠ '.' :: r) : readFrac s = ([], s) := by
  rw [readFrac.eq_def]
  split
  · exact absurd rfl (h _)
  · rfl

theorem isPyDigits_of {s : Str} (hne : s ≠ []) (hdig : ∀ c ∈ s, c.isDigit = true) :
    isPyDigits s = true := by
  simp only [isPyDigits, Bool.and_eq_true, Bool.not_eq_true', List.isEmpty_iff,
    List.all_eq_true]
  exact ⟨by simpa using hne, hdig⟩

/-- `int()` on a nonempty all-digit string yields its value. -/
theorem pyInt?_digits {s : Str} (hne : s ≠ []) (hdig : ∀ c ∈ s, c.isDigit = true) :
    pyInt? s = some ((digitsVal s : Int)) := by
  have hstrip : pyStrip s = s :=
    pyStrip_eq_self fun c hc => digit_not_space (hdig c hc)
  have hsign : pyIntSign s = (false, s) := by
    apply pyIntSign_eq_self
    rintro c r rfl
    have hfacts := digit_ne_special (hdig c (List.mem_cons_self c r))
    exact ⟨hfacts.2.2.2.1, hfacts.2.1⟩
  unfold pyInt?
  rw [hstrip, hsign]
  simp [isPyDigits_of hne hdig]

/-- `float()` on a well-formed numeral yields its positional value. -/
theorem pyFloat?_numeral {s : Str} (h : isNumeralStr s = true) :
    pyFloat? s = some (numeralVal s) := by
  have hchars := (isNumeralStr_parts h).1
  have hstrip : pyStrip s = s :=
    pyStrip_eq_self fun c hc => (numChar_facts (hchars c hc)).2.1
  have hsign : readSign s = (1, s) := by
    apply readSign_eq_self
    rintro c r rfl
    have hf := numChar_facts (hchars c (List.mem_cons_self c r))
    exact ⟨hf.2.2.2.2.1, hf.2.2.2.1⟩
  rcases numeral_shape h with ⟨hdig, hne⟩ | ⟨a, b, hs, ha, hb, hab⟩
  · have htd : takeDigits s = (s, []) := takeDigits_all hdig
    have hdot : '.' ∉ s := by
      intro hmem
      have := hdig '.' hmem
      simp [Char.isDigit] at this
    unfold pyFloat?
    rw [hstrip, hsign]
    simp only [htd]
    rw [readFrac.eq_def]
    unfold numeralVal
    rw [List.takeWhile_eq_self_iff.mpr ?hpw, List.dropWhile_eq_nil_iff.mpr ?hpw]
    case hpw =>
      intro c hc
      simp only [decide_eq_true_eq]
      intro hcc
      exact hdot (hcc ▸ hc)
    rw [if_neg (by simp [hne])]
    simp [one_mul]
  · have htd : takeDigits s = (a, '.' :: b) := by
      unfold takeDigits
      have := takeWhile_append_stop (p := Char.isDigit) '.' b ha (by decide)
      rw [hs, this.1, this.2]
    have hfrac : readFrac ('.' :: b) = (b, []) := by
      show takeDigits b = (b, [])
      exact takeDigits_all hb
    unfold pyFloat?
    rw [hstrip, hsign]
    simp only [htd, hfrac]
    rw [if_neg (by rintro ⟨rfl, rfl⟩; rcases hab with hne | hne <;> exact hne rfl)]
    unfold numeralVal
    have hstop := takeWhile_append_stop (p := fun c => decide (c ≠ '.')) '.' b
      (fun c hc => by
        simp only [decide_eq_true_eq]
        exact (digit_ne_special (ha c hc)).2.2.1)
      (by decide)
    rw [hs, hstop.1, hstop.2]
    simp [one_mul]

/-! ## Supporting lemmas: substring test and record selection -/

theorem pyIn_append_self (n x : Str) : pyIn n (x ++ n) = true := by
  induction x with
  | nil =>
    rw [List.nil_append]
    cases n with
    | nil => rfl
    | cons c r =>
      rw [pyIn]
      simp [List.isPrefixOf_iff_prefix]
  | cons c x' ih =>
    rw [List.cons_append, pyIn, ih]
    simp

theorem ne_append_of_ne_nil {x y : Str} (h : y ≠ []) : x ≠ x ++ y := by
  intro he
  have := congrArg List.length he
  rw [List.length_append] at this
  have : y.length = 0 := by omega
  exact h (List.length_eq_zero.mp this)

/-- The selection loop finds the last line with the job id as record id and
the last line with the `.batch`-suffixed id, provided the job id itself does
not contain `.batch`. -/
theorem selectMainBatch_eq (jobId : Str) (hJ : pyIn ".batch".data jobId = false)
    (lines : List Str) :
    selectMainBatch jobId lines =
      (((lines.filter fun l => decide (recordId l = jobId)).getLast?).map (pySplit '|'),
        ((lines.filter fun l =>
          decide (recordId l = jobId ++ ".batch".data)).getLast?).map (pySplit '|')) := by
  have hne : jobId ≠ jobId ++ ".batch".data := ne_append_of_ne_nil (by decide)
  suffices haux : ∀ (ls : List Str) (acc : Option (List Str) × Option (List Str)),
      ls.foldl
        (fun acc line =>
          let parts := pySplit '|' line
          if parts ≠ [] then
            let step_id := parts.headD []
            if step_id = jobId ∨ step_id = jobId ++ ".batch".data then
              if pyIn ".batch".data step_id then (acc.1, some parts) else (some parts, acc.2)
            else acc
          else acc)
        acc =
        (((ls.filter fun l => decide (recordId l = jobId)).getLast?).elim acc.1
            (fun x => some (pySplit '|' x)),
          ((ls.filter fun l =>
            decide (recordId l = jobId ++ ".batch".data)).getLast?).elim acc.2
            (fun x => some (pySplit '|' x))) by
    rw [selectMainBatch, haux]
    cases h1 : (lines.filter fun l => decide (recordId l = jobId)).getLast? <;>
      cases h2 : (lines.filter fun l =>
        decide (recordId l = jobId ++ ".batch".data)).getLast? <;> rfl
  intro ls
  induction ls with
  | nil => intro acc; rfl
  | cons l rest ih =>
    intro acc
    rw [List.foldl_cons, ih]
    have hparts : pySplit '|' l ≠ [] := pySplit_ne_nil '|' l
    by_cases h1 : recordId l = jobId
    · have h2 : ¬ recordId l = jobId ++ ".batch".data := fun hc => hne (h1 ▸ hc)
      have hbatch : pyIn ".batch".data ((pySplit '|' l).headD []) = false := by
        show pyIn ".batch".data (recordId l) = false
        rw [h1, hJ]
      simp only [if_pos hparts, if_pos (Or.inl (show (pySplit '|' l).headD [] = jobId from h1)),
        hbatch, Bool.false_eq_true, if_neg (by simp : ¬False)]
      rw [List.filter_cons_of_pos (by simpa using h1),
        List.filter_cons_of_neg (by simpa using h2)]
      cases hx : (rest.filter fun l => decide (recordId l = jobId)).getLast? with
      | none =>
        simp [List.getLast?_cons, List.getLastD, hx,
          List.getLastD_eq_getLast?, Option.elim]
      | some x =>
        simp [List.getLast?_cons, List.getLastD, hx,
          List.getLastD_eq_getLast?, Option.elim]
    · by_cases h2 : recordId l = jobId ++ ".batch".data
      · have hbatch : pyIn ".batch".data ((pySplit '|' l).headD []) = true := by
          show pyIn ".batch".data (recordId l) = true
          rw [h2]
          exact pyIn_append_self _ _
        simp only [if_pos hparts,
          if_pos (Or.inr (show (pySplit '|' l).headD [] = jobId ++ ".batch".data from h2)),
          hbatch, if_pos]
        rw [List.filter_cons_of_neg (by simpa using h1),
          List.filter_cons_of_pos (by simpa using h2)]
        cases hx : (rest.filter fun l =>
            decide (recordId l = jobId ++ ".batch".data)).getLast? with
        | none =>
          simp [List.getLast?_cons, List.getLastD, hx,
            List.getLastD_eq_getLast?, Option.elim]
        | some x =>
          simp [List.getLast?_cons, List.getLastD, hx,
            List.getLastD_eq_getLast?, Option.elim]
      · have hor : ¬((pySplit '|' l).headD [] = jobId ∨
            (pySplit '|' l).headD [] = jobId ++ ".batch".data) := by
          rintro (hc | hc)
          · exact h1 hc
          · exact h2 hc
        simp only [if_pos hparts, if_neg hor]
        rw [List.filter_cons_of_neg (by simpa using h1),
          List.filter_cons_of_neg (by simpa using h2)]

/-! ## Supporting lemmas: efficiency calculation -/

/-- `calculate_efficiency` only writes the four derived percentage fields. -/
theorem calculate_efficiency_preserves (m : JobMetrics) :
    (m.calculate_efficiency).job_id = m.job_id ∧
    (m.calculate_efficiency).job_name = m.job_name ∧
    (m.calculate_efficiency).user = m.user ∧
    (m.calculate_efficiency).state = m.state ∧
    (m.calculate_efficiency).elapsed_time = m.elapsed_time ∧
    (m.calculate_efficiency).time_limit = m.time_limit ∧
    (m.calculate_efficiency).num_nodes = m.num_nodes ∧
    (m.calculate_efficiency).num_cpus = m.num_cpus ∧
    (m.calculate_efficiency).num_gpus = m.num_gpus ∧
    (m.calculate_efficiency).memory_requested = m.memory_requested ∧
    (m.calculate_efficiency).partition = m.partition ∧
    (m.calculate_efficiency).cpu_time_total = m.cpu_time_total ∧
    (m.calculate_efficiency).memory_used_max = m.memory_used_max ∧
    (m.calculate_efficiency).gpu_metrics = m.gpu_metrics ∧
    (m.calculate_efficiency).last_updated = m.last_updated := by
  simp only [JobMetrics.calculate_efficiency]
  split_ifs <;>
    exact ⟨rfl, rfl, rfl, rfl, rfl, rfl, rfl, rfl, rfl, rfl, rfl, rfl, rfl, rfl, rfl⟩

theorem clamp_bounds (x : Rat) : 0 ≤ min 100 (max 0 x) ∧ min 100 (max 0 x) ≤ 100 :=
  ⟨le_min (by norm_num) (le_max_left 0 x), min_le_left _ _⟩

theorem list_avg_bounds {l : List Rat} (hne : l ≠ []) (h : ∀ x ∈ l, 0 ≤ x ∧ x ≤ 100) :
    0 ≤ l.sum / (l.length : Rat) ∧ l.sum / (l.length : Rat) ≤ 100 := by
  have hlen : 0 < (l.length : Rat) := by
    have : 0 < l.length := List.length_pos.mpr hne
    exact_mod_cast this
  constructor
  · exact div_nonneg (List.sum_nonneg fun x hx => (h x hx).1) (le_of_lt hlen)
  · rw [div_le_iff₀ hlen]
    have := List.sum_le_card_nsmul l 100 fun x hx => (h x hx).2
    rwa [nsmul_eq_mul, mul_comm] at this

/-- Inversion of a successful historical build: every parser succeeded and
the result is the efficiency-finalised record over the selected lines. -/
theorem buildCompleted_ok {jobId : Str} {now : DateTime} {main : List Str}
    {batch : Option (List Str)} {m : JobMetrics}
    (h : buildCompleted jobId now main batch = .ok (some m)) :
    ¬ main.length < 18 ∧
    ∃ st elapsed tlimit reqMem memMax cpuTot,
      JobState.from_string (main.getD 3 []) = .ok st ∧
      _parse_time (main.getD 7 []) = .ok elapsed ∧
      _parse_time (main.getD 8 []) = .ok tlimit ∧
      _parse_memory (reqMemStr main) = .ok reqMem ∧
      _parse_memory ((batchOrMain main batch).getD 12 []) = .ok memMax ∧
      _parse_cpu_time ((batchOrMain main batch).getD 14 []) = .ok cpuTot ∧
      m = JobMetrics.calculate_efficiency
        { job_id := jobId
          last_updated := some now
          job_name := main.getD 1 []
          user := main.getD 2 []
          state := st
          submit_time := _parse_datetime (main.getD 4 [])
          start_time := _parse_datetime (main.getD 5 [])
          end_time := _parse_datetime (main.getD 6 [])
          elapsed_time := elapsed
          time_limit := tlimit
          num_nodes := completedNumNodes main
          num_cpus := completedNumCpus main
          memory_requested := reqMem * (reqMemMult main : Rat)
          partition := main.getD 15 []
          num_gpus := gresGpuCount (allocGresStr main) 0
          memory_used_max := memMax
          cpu_time_total := cpuTot } := by
  unfold buildCompleted at h
  split at h
  · exact absurd h (by simp)
  next h18 =>
  refine ⟨h18, ?_⟩
  split at h
  · exact absurd h (by simp)
  next st hst =>
  split at h
  · exact absurd h (by simp)
  next elapsed helapsed =>
  split at h
  · exact absurd h (by simp)
  next tlimit htlimit =>
  split at h
  · exact absurd h (by simp)
  next reqMem hreqMem =>
  split at h
  · exact absurd h (by simp)
  next memMax hmemMax =>
  split at h
  · exact absurd h (by simp)
  next cpuTot hcpuTot =>
  simp only [Except.ok.injEq, Option.some.injEq] at h
  exact ⟨st, elapsed, tlimit, reqMem, memMax, cpuTot, hst, helapsed, htlimit,
    hreqMem, hmemMax, hcpuTot, h.symm⟩

/-- With a successful, non-empty accounting query the historical collector
is the build step applied to the selected lines. -/
theorem get_completed_eq_build (jobId : Str) (now : DateTime) (res : CmdResult)
    (h0 : res.rc = 0) (hne : pyStrip res.stdout ≠ []) :
    get_completed_job_stats jobId now res =
      buildCompleted jobId now
        (mainLineOf jobId (pySplit '\n' (pyStrip res.stdout)))
        (selectMainBatch jobId (pySplit '\n' (pyStrip res.stdout))).2 := by
  unfold get_completed_job_stats
  rw [if_neg]
  push_neg
  exact ⟨by rw [h0], hne⟩

theorem mainLineOf_single {jobId : Str} {lines : List Str} {mainL : Str}
    (hJ : pyIn ".batch".data jobId = false)
    (hf : lines.filter (fun l => decide (recordId l = jobId)) = [mainL]) :
    mainLineOf jobId lines = pySplit '|' mainL := by
  unfold mainLineOf
  rw [selectMainBatch_eq jobId hJ, hf]
  rfl

theorem mainLineOf_of_no_match {jobId : Str} {lines : List Str}
    (hJ : pyIn ".batch".data jobId = false)
    (hf : lines.filter (fun l => decide (recordId l = jobId)) = []) :
    mainLineOf jobId lines = pySplit '|' (lines.headD []) := by
  unfold mainLineOf
  rw [selectMainBatch_eq jobId hJ, hf]
  rfl

theorem selectBatch_single {jobId : Str} {lines : List Str} {batchL : Str}
    (hJ : pyIn ".batch".data jobId = false)
    (hf : lines.filter (fun l => decide (recordId l = jobId ++ ".batch".data)) = [batchL]) :
    (selectMainBatch jobId lines).2 = some (pySplit '|' batchL) := by
  rw [selectMainBatch_eq jobId hJ, hf]
  rfl

/-- A step-statistics result is unusable when the call failed, returned
nothing, or returned no line with at least five fields. -/
def sstatUnusable (r : CmdResult) : Prop :=
  r.rc ≠ 0 ∨ pyStrip r.stdout = [] ∨
    (pySplit '\n' (pyStrip r.stdout)).find? (fun l => decide (5 ≤ (pySplit '|' l).length)) = none

/-- The suffix cascade leaves the metrics unchanged when every attempted
call is unusable. -/
theorem sstatTry_unusable {jobId : Str} {m : JobMetrics} {sstat : Str → CmdResult}
    (sufs : List Str) (h : ∀ suf ∈ sufs, sstatUnusable (sstat (jobId ++ suf))) :
    sstatTry jobId m sstat sufs = .ok m := by
  induction sufs with
  | nil => rfl
  | cons suf rest ih =>
    rw [sstatTry]
    have hu := h suf (List.mem_cons_self suf rest)
    by_cases hc : (sstat (jobId ++ suf)).rc = 0 ∧ pyStrip (sstat (jobId ++ suf)).stdout ≠ []
    · rw [if_pos hc]
      rcases hu with hrc | hempty | hfind
      · exact absurd hc.1 hrc
      · exact absurd hempty hc.2
      · rw [sstatPopulate, hfind]
    · rw [if_neg hc]
      exact ih fun s hs => h s (List.mem_cons_of_mem suf hs)

/-- `calculate_efficiency` is the identity on a freshly-initialised record. -/
theorem calculate_efficiency_init (jobId : Str) (now : DateTime) :
    JobMetrics.calculate_efficiency
        { job_id := jobId, state := .RUNNING, last_updated := some now } =
      { job_id := jobId, state := .RUNNING, last_updated := some now } := by
  norm_num [JobMetrics.calculate_efficiency, JobMetrics.elapsed_seconds]

/-! ## Claim theorems -/

/-- C9: `time_efficiency` returns `0` whenever `time_limit_seconds` is zero
or negative, and otherwise `100 × elapsed_seconds / time_limit_seconds`,
for every `JobMetrics` value and elapsed duration. -/
theorem spec_C9 (m : JobMetrics) :
    (m.time_limit_seconds ≤ 0 → m.time_efficiency = 0) ∧
    (0 < m.time_limit_seconds →
      m.time_efficiency = 100 * m.elapsed_seconds / m.time_limit_seconds) := by
  constructor
  · intro h
    simp [JobMetrics.time_efficiency, h]
  · intro h
    rw [JobMetrics.time_efficiency, if_neg (not_le.mpr h)]
    ring

theorem spec_C9_witness :
    ({ elapsed_time := 50, time_limit := -3 } : JobMetrics).time_efficiency = 0 ∧
    ({ elapsed_time := 50, time_limit := 200 } : JobMetrics).time_efficiency =
      100 * (50 : Rat) / 200 :=
  ⟨(spec_C9 _).1 (by norm_num [JobMetrics.time_limit_seconds]),
    (spec_C9 _).2 (by norm_num [JobMetrics.time_limit_seconds])⟩

/-- C6: when the squeue call fails or returns empty output, the live
collector reports the job absent (`none`), never a zeroed metrics value. -/
theorem spec_C6 (jobId : Str) (now : DateTime) (squeueRes : CmdResult)
    (sstat : Str → CmdResult)
    (h : squeueRes.rc ≠ 0 ∨ pyStrip squeueRes.stdout = []) :
    get_running_job_stats jobId now squeueRes sstat = .ok none := by
  unfold get_running_job_stats
  rw [if_pos h]

theorem spec_C6_witness :
    get_running_job_stats "123".data {} { stdout := "x|y".data, rc := 1 }
        (fun _ => {}) = .ok none ∧
    get_running_job_stats "123".data {} { stdout := "  ".data, rc := 0 }
        (fun _ => {}) = .ok none :=
  ⟨spec_C6 _ _ _ _ (Or.inl (by decide)), spec_C6 _ _ _ _ (Or.inr (by decide))⟩

/-- C2 (code bug): `_parse_memory` is not total — on the input `"."` the
regex `^([\d.]+)([KMGT]?)$` matches with group 1 `"."`, and the call
`float(match.group(1))`, which sits outside the `try` block, raises an
uncaught `ValueError` instead of degrading to `0.0`. -/
theorem spec_C2 : _parse_memory ".".data = .error () := by decide

/-- C7 (counterexample): on the empty state string, `from_string` raises an
`IndexError` (`"".upper().split()[0]` on an empty token list) instead of
returning an enumeration member. -/
theorem spec_C7_counterexample : JobState.from_string [] = .error () := by decide

/-- C7 (amended): for every state string with at least one non-whitespace
character, `from_string` returns the member matching the first
whitespace-delimited token after upper-casing, `Unknown` for unrecognized
tokens; leading whitespace is ignored, parsing the canonical member name
returns that member (idempotence), and `"CANCELLED by user"`, `"running"`,
`"garbage"` map to `Cancelled`, `Running`, `Unknown`.  The empty (or
all-whitespace) string instead raises. -/
theorem spec_C7 :
    (∀ s tok, firstWsToken (pyUpper s) = some tok →
      JobState.from_string s = .ok (JobState.ofToken tok)) ∧
    (∀ c s, pyIsSpace c = true →
      JobState.from_string (c :: s) = JobState.from_string s) ∧
    (∀ st : JobState, JobState.from_string st.value = .ok st) ∧
    JobState.from_string "CANCELLED by user".data = .ok .CANCELLED ∧
    JobState.from_string "running".data = .ok .RUNNING ∧
    JobState.from_string "garbage".data = .ok .UNKNOWN := by
  refine ⟨?_, ?_, ?_, by decide, by decide, by decide⟩
  · intro s tok h
    unfold JobState.from_string
    rw [h]
  · intro c s h
    unfold JobState.from_string
    have hc : pyUpper (c :: s) = c.toUpper :: pyUpper s := rfl
    have hsp : pyIsSpace c.toUpper = true := by
      simp only [pyIsSpace, Bool.or_eq_true, decide_eq_true_eq] at h
      rcases h with ((((rfl | rfl) | rfl) | rfl) | rfl) | rfl <;> decide
    rw [hc]
    unfold firstWsToken
    rw [List.dropWhile_cons, if_pos hsp]
  · intro st
    cases st <;> decide

theorem spec_C7_witness :
    JobState.from_string " cancelled by user".data =
      .ok (JobState.ofToken "CANCELLED".data) ∧
    JobState.from_string (' ' :: "RUNNING".data) = JobState.from_string "RUNNING".data ∧
    JobState.from_string (JobState.NODE_FAIL).value = .ok .NODE_FAIL :=
  ⟨spec_C7.1 _ _ (by decide), spec_C7.2.1 ' ' _ (by decide), spec_C7.2.2.1 .NODE_FAIL⟩

/-- The `cpu_efficiency` written by `calculate_efficiency`. -/
theorem calc_cpu_eff_proj (m : JobMetrics) :
    (m.calculate_efficiency).cpu_efficiency =
      if 0 < m.elapsed_seconds ∧ 0 < m.num_cpus then
        min 100 (max 0 (m.cpu_time_total / (m.elapsed_seconds * (m.num_cpus : Rat)) * 100))
      else m.cpu_efficiency := by
  simp only [JobMetrics.calculate_efficiency]
  split_ifs <;> rfl

/-- The `memory_efficiency` written by `calculate_efficiency`. -/
theorem calc_mem_eff_proj (m : JobMetrics) :
    (m.calculate_efficiency).memory_efficiency =
      if 0 < m.memory_requested then
        min 100 (max 0 (m.memory_used_max / m.memory_requested * 100))
      else m.memory_efficiency := by
  simp only [JobMetrics.calculate_efficiency]
  split_ifs <;> rfl

/-- The `gpu_utilization_avg` written by `calculate_efficiency`. -/
theorem calc_gpu_avg_proj (m : JobMetrics) :
    (m.calculate_efficiency).gpu_utilization_avg =
      if m.gpu_metrics ≠ [] then
        (m.gpu_metrics.map GPUMetrics.utilization).sum / (m.gpu_metrics.length : Rat)
      else m.gpu_utilization_avg := by
  simp only [JobMetrics.calculate_efficiency]
  split_ifs <;> rfl

/-- The `gpu_memory_utilization_avg` written by `calculate_efficiency`. -/
theorem calc_gpu_mem_avg_proj (m : JobMetrics) :
    (m.calculate_efficiency).gpu_memory_utilization_avg =
      if m.gpu_metrics ≠ [] then
        (m.gpu_metrics.map GPUMetrics.memory_utilization).sum / (m.gpu_metrics.length : Rat)
      else m.gpu_memory_utilization_avg := by
  simp only [JobMetrics.calculate_efficiency]
  split_ifs <;> rfl

/-- C1 (counterexample): the GPU utilization averages are *not* clamped; a
single GPU whose raw utilization is `150` yields
`gpu_utilization_avg = 150 > 100` after `calculate_efficiency`. -/
theorem spec_C1_counterexample :
    (JobMetrics.calculate_efficiency
        { gpu_metrics := [{ utilization := 150 }] }).gpu_utilization_avg = 150 ∧
      ¬ ((150 : Rat) ≤ 100) := by
  constructor
  · rw [calc_gpu_avg_proj]
    norm_num
  · norm_num

/-- C1 (amended): after `calculate_efficiency`, `cpu_efficiency` and
`memory_efficiency` lie in `[0, 100]` provided they did before (they are `0`
at construction), and the GPU averages lie in `[0, 100]` provided they did
before and every GPU's percentages do; a `cpu_time_total` equal to twice
`elapsed_seconds × num_cpus` (both positive) yields `cpu_efficiency`
exactly `100`. -/
theorem spec_C1 :
    (∀ m : JobMetrics,
      0 ≤ m.cpu_efficiency → m.cpu_efficiency ≤ 100 →
      0 ≤ m.memory_efficiency → m.memory_efficiency ≤ 100 →
      (∀ g ∈ m.gpu_metrics, (0 ≤ g.utilization ∧ g.utilization ≤ 100) ∧
        (0 ≤ g.memory_utilization ∧ g.memory_utilization ≤ 100)) →
      0 ≤ m.gpu_utilization_avg → m.gpu_utilization_avg ≤ 100 →
      0 ≤ m.gpu_memory_utilization_avg → m.gpu_memory_utilization_avg ≤ 100 →
      (0 ≤ (m.calculate_efficiency).cpu_efficiency ∧
        (m.calculate_efficiency).cpu_efficiency ≤ 100) ∧
      (0 ≤ (m.calculate_efficiency).memory_efficiency ∧
        (m.calculate_efficiency).memory_efficiency ≤ 100) ∧
      (0 ≤ (m.calculate_efficiency).gpu_utilization_avg ∧
        (m.calculate_efficiency).gpu_utilization_avg ≤ 100) ∧
      (0 ≤ (m.calculate_efficiency).gpu_memory_utilization_avg ∧
        (m.calculate_efficiency).gpu_memory_utilization_avg ≤ 100)) ∧
    (∀ m : JobMetrics,
      0 < m.elapsed_seconds → 0 < m.num_cpus →
      m.cpu_time_total = 2 * (m.elapsed_seconds * (m.num_cpus : Rat)) →
      (m.calculate_efficiency).cpu_efficiency = 100) := by
  constructor
  · intro m h1l h1u h2l h2u hg h3l h3u h4l h4u
    rw [calc_cpu_eff_proj, calc_mem_eff_proj, calc_gpu_avg_proj, calc_gpu_mem_avg_proj]
    refine ⟨?_, ?_, ?_, ?_⟩
    · split_ifs with hc
      · exact clamp_bounds _
      · exact ⟨h1l, h1u⟩
    · split_ifs with hc
      · exact clamp_bounds _
      · exact ⟨h2l, h2u⟩
    · split_ifs with hc
      · have hlen : m.gpu_metrics.length = (m.gpu_metrics.map GPUMetrics.utilization).length :=
          (List.length_map _ _).symm
        rw [hlen]
        refine list_avg_bounds (by simpa using hc) ?_
        rintro x hx
        obtain ⟨g, hgmem, rfl⟩ := List.mem_map.mp hx
        exact (hg g hgmem).1
      · exact ⟨h3l, h3u⟩
    · split_ifs with hc
      · have hlen : m.gpu_metrics.length =
            (m.gpu_metrics.map GPUMetrics.memory_utilization).length :=
          (List.length_map _ _).symm
        rw [hlen]
        refine list_avg_bounds (by simpa using hc) ?_
        rintro x hx
        obtain ⟨g, hgmem, rfl⟩ := List.mem_map.mp hx
        exact (hg g hgmem).2
      · exact ⟨h4l, h4u⟩
  · intro m he hc heq
    rw [calc_cpu_eff_proj, if_pos ⟨he, hc⟩, heq]
    have hcpos : (0 : Rat) < (m.num_cpus : Rat) := by exact_mod_cast hc
    have hne : m.elapsed_seconds * (m.num_cpus : Rat) ≠ 0 :=
      ne_of_gt (mul_pos he hcpos)
    rw [mul_div_assoc, div_self hne, mul_one]
    norm_num

theorem spec_C1_witness :
    ((0 ≤ (JobMetrics.calculate_efficiency
        { cpu_time_total := 50, elapsed_time := 10, num_cpus := 2,
          memory_requested := 100, memory_used_max := 350,
          gpu_metrics := [{ utilization := 60, memory_utilization := 40 }] }).cpu_efficiency ∧
      (JobMetrics.calculate_efficiency
        { cpu_time_total := 50, elapsed_time := 10, num_cpus := 2,
          memory_requested := 100, memory_used_max := 350,
          gpu_metrics := [{ utilization := 60, memory_utilization := 40 }] }).cpu_efficiency ≤ 100) ∧
      (0 ≤ (JobMetrics.calculate_efficiency
        { cpu_time_total := 50, elapsed_time := 10, num_cpus := 2,
          memory_requested := 100, memory_used_max := 350,
          gpu_metrics := [{ utilization := 60, memory_utilization := 40 }] }).memory_efficiency ∧
      (JobMetrics.calculate_efficiency
        { cpu_time_total := 50, elapsed_time := 10, num_cpus := 2,
          memory_requested := 100, memory_used_max := 350,
          gpu_metrics := [{ utilization := 60, memory_utilization := 40 }] }).memory_efficiency ≤ 100) ∧
      (0 ≤ (JobMetrics.calculate_efficiency
        { cpu_time_total := 50, elapsed_time := 10, num_cpus := 2,
          memory_requested := 100, memory_used_max := 350,
          gpu_metrics := [{ utilization := 60, memory_utilization := 40 }] }).gpu_utilization_avg ∧
      (JobMetrics.calculate_efficiency
        { cpu_time_total := 50, elapsed_time := 10, num_cpus := 2,
          memory_requested := 100, memory_used_max := 350,
          gpu_metrics := [{ utilization := 60, memory_utilization := 40 }] }).gpu_utilization_avg ≤ 100) ∧
      (0 ≤ (JobMetrics.calculate_efficiency
        { cpu_time_total := 50, elapsed_time := 10, num_cpus := 2,
          memory_requested := 100, memory_used_max := 350,
          gpu_metrics := [{ utilization := 60, memory_utilization := 40 }] }).gpu_memory_utilization_avg ∧
      (JobMetrics.calculate_efficiency
        { cpu_time_total := 50, elapsed_time := 10, num_cpus := 2,
          memory_requested := 100, memory_used_max := 350,
          gpu_metrics := [{ utilization := 60, memory_utilization := 40 }] }).gpu_memory_utilization_avg ≤ 100)) ∧
    (JobMetrics.calculate_efficiency
        { elapsed_time := 1800, num_cpus := 4, cpu_time_total := 14400 }).cpu_efficiency = 100 :=
  ⟨spec_C1.1 _ (by norm_num) (by norm_num) (by norm_num) (by norm_num)
      (by rintro g hg; simp only [List.mem_singleton] at hg; subst hg; norm_num)
      (by norm_num) (by norm_num) (by norm_num) (by norm_num),
    spec_C1.2 _ (by norm_num [JobMetrics.elapsed_seconds]) (by norm_num)
      (by norm_num [JobMetrics.elapsed_seconds])⟩

/-- Basic facts about a well-formed numeral string. -/
theorem numeral_basic {s : Str} (h : isNumeralStr s = true) :
    ':' ∉ s ∧ '-' ∉ s ∧ (∀ c ∈ s, pyIsSpace c = false) ∧ s ≠ [] := by
  have hchars := (isNumeralStr_parts h).1
  obtain ⟨cd, hcd, _⟩ := (isNumeralStr_parts h).2.2
  refine ⟨fun hm => ?_, fun hm => ?_,
    fun c hc => (numChar_facts (hchars c hc)).2.1, List.ne_nil_of_mem hcd⟩
  · exact (numChar_facts (hchars ':' hm)).2.2.1 rfl
  · exact (numChar_facts (hchars '-' hm)).2.2.2.1 rfl

/-- Splitting `H:M:S` built from colon-free groups. -/
theorem pySplit_three {h2 m2 s2 : Str} (hh : ':' ∉ h2) (hm : ':' ∉ m2) (hs : ':' ∉ s2) :
    pySplit ':' (h2 ++ ':' :: (m2 ++ ':' :: s2)) = [h2, m2, s2] := by
  rw [pySplit_append _ hh, pySplit_append _ hm, pySplit_of_not_mem hs]

/-- C4: on each of the four accepted duration shapes with well-formed
numeral colon-groups (and an all-digit day count), `_parse_time` returns
exactly the second count implied by the literal; the empty string yields a
zero duration. -/
theorem spec_C4 :
    (∀ s, isNumeralStr s = true → _parse_time s = .ok (numeralVal s)) ∧
    (∀ m2 s2, isNumeralStr m2 = true → isNumeralStr s2 = true →
      _parse_time (m2 ++ ':' :: s2) = .ok (60 * numeralVal m2 + numeralVal s2)) ∧
    (∀ h2 m2 s2, isNumeralStr h2 = true → isNumeralStr m2 = true →
      isNumeralStr s2 = true →
      _parse_time (h2 ++ ':' :: (m2 ++ ':' :: s2)) =
        .ok (3600 * numeralVal h2 + 60 * numeralVal m2 + numeralVal s2)) ∧
    (∀ d h2 m2 s2, isPyDigits d = true → isNumeralStr h2 = true →
      isNumeralStr m2 = true → isNumeralStr s2 = true →
      _parse_time (d ++ '-' :: (h2 ++ ':' :: (m2 ++ ':' :: s2))) =
        .ok (86400 * (digitsVal d : Rat) + 3600 * numeralVal h2 + 60 * numeralVal m2 +
          numeralVal s2)) ∧
    _parse_time [] = .ok 0 := by
  refine ⟨?_, ?_, ?_, ?_, by decide⟩
  · intro s hs
    obtain ⟨hcolon, hdash, hnospace, hne⟩ := numeral_basic hs
    simp only [_parse_time, hne, pyStrip_eq_self hnospace, hdash,
      pySplit_of_not_mem hcolon, pyFloat?_numeral hs, if_false, ite_false]
    norm_num
  · intro m2 s2 hm hs
    obtain ⟨hcolonm, hdashm, hnospacem, hnem⟩ := numeral_basic hm
    obtain ⟨hcolons, hdashs, hnospaces, _⟩ := numeral_basic hs
    have hne : m2 ++ ':' :: s2 ≠ [] := by simp
    have hnospace : ∀ c ∈ m2 ++ ':' :: s2, pyIsSpace c = false := by
      intro c hc
      rcases List.mem_append.mp hc with hc | hc
      · exact hnospacem c hc
      · rcases List.mem_cons.mp hc with rfl | hc
        · decide
        · exact hnospaces c hc
    have hdash : '-' ∉ m2 ++ ':' :: s2 := by
      intro hc
      rcases List.mem_append.mp hc with hc | hc
      · exact hdashm hc
      · rcases List.mem_cons.mp hc with hc | hc
        · exact absurd hc.symm (by decide)
        · exact hdashs hc
    simp only [_parse_time, hne, pyStrip_eq_self hnospace, hdash,
      pySplit_append _ hcolonm, pySplit_of_not_mem hcolons,
      pyFloat?_numeral hm, pyFloat?_numeral hs, if_false, ite_false]
    norm_num
    ring
  · intro h2 m2 s2 hh hm hs
    obtain ⟨hcolonh, hdashh, hnospaceh, _⟩ := numeral_basic hh
    obtain ⟨hcolonm, hdashm, hnospacem, _⟩ := numeral_basic hm
    obtain ⟨hcolons, hdashs, hnospaces, _⟩ := numeral_basic hs
    have hne : h2 ++ ':' :: (m2 ++ ':' :: s2) ≠ [] := by simp
    have hnospace : ∀ c ∈ h2 ++ ':' :: (m2 ++ ':' :: s2), pyIsSpace c = false := by
      intro c hc
      rcases List.mem_append.mp hc with hc | hc
      · exact hnospaceh c hc
      · rcases List.mem_cons.mp hc with rfl | hc
        · decide
        · rcases List.mem_append.mp hc with hc | hc
          · exact hnospacem c hc
          · rcases List.mem_cons.mp hc with rfl | hc
            · decide
            · exact hnospaces c hc
    have hdash : '-' ∉ h2 ++ ':' :: (m2 ++ ':' :: s2) := by
      intro hc
      rcases List.mem_append.mp hc with hc | hc
      · exact hdashh hc
      · rcases List.mem_cons.mp hc with hc | hc
        · exact absurd hc.symm (by decide)
        · rcases List.mem_append.mp hc with hc | hc
          · exact hdashm hc
          · rcases List.mem_cons.mp hc with hc | hc
            · exact absurd hc.symm (by decide)
            · exact hdashs hc
    simp only [_parse_time, hne, pyStrip_eq_self hnospace, hdash,
      pySplit_three hcolonh hcolonm hcolons,
      pyFloat?_numeral hh, pyFloat?_numeral hm, pyFloat?_numeral hs, if_false, ite_false]
    norm_num
    ring
  · intro d h2 m2 s2 hd hh hm hs
    obtain ⟨hcolonh, hdashh, hnospaceh, _⟩ := numeral_basic hh
    obtain ⟨hcolonm, hdashm, hnospacem, _⟩ := numeral_basic hm
    obtain ⟨hcolons, hdashs, hnospaces, _⟩ := numeral_basic hs
    have hddig : ∀ c ∈ d, c.isDigit = true := by
      simp only [isPyDigits, Bool.and_eq_true, Bool.not_eq_true', List.isEmpty_iff,
        List.all_eq_true] at hd
      exact hd.2
    have hdne : d ≠ [] := by
      simp only [isPyDigits, Bool.and_eq_true, Bool.not_eq_true'] at hd
      intro hnil
      simp [hnil] at hd
    have hne : d ++ '-' :: (h2 ++ ':' :: (m2 ++ ':' :: s2)) ≠ [] := by simp
    have hnospace : ∀ c ∈ d ++ '-' :: (h2 ++ ':' :: (m2 ++ ':' :: s2)),
        pyIsSpace c = false := by
      intro c hc
      rcases List.mem_append.mp hc with hc | hc
      · exact digit_not_space (hddig c hc)
      · rcases List.mem_cons.mp hc with rfl | hc
        · decide
        · rcases List.mem_append.mp hc with hc | hc
          · exact hnospaceh c hc
          · rcases List.mem_cons.mp hc with rfl | hc
            · decide
            · rcases List.mem_append.mp hc with hc | hc
              · exact hnospacem c hc
              · rcases List.mem_cons.mp hc with rfl | hc
                · decide
                · exact hnospaces c hc
    have hdash : '-' ∈ d ++ '-' :: (h2 ++ ':' :: (m2 ++ ':' :: s2)) :=
      List.mem_append_right _ (List.mem_cons_self _ _)
    have hsplitonce :
        pySplitOnce '-' (d ++ '-' :: (h2 ++ ':' :: (m2 ++ ':' :: s2))) =
          (d, h2 ++ ':' :: (m2 ++ ':' :: s2)) := by
      unfold pySplitOnce
      have hstop := takeWhile_append_stop (p := fun c => decide (c ≠ '-')) '-'
        (h2 ++ ':' :: (m2 ++ ':' :: s2))
        (fun c hc => by
          simp only [decide_eq_true_eq]
          exact (digit_ne_special (hddig c hc)).2.1)
        (by decide)
      rw [hstop.1, hstop.2]
      rfl
    simp only [_parse_time, hne, pyStrip_eq_self hnospace, hdash, hsplitonce,
      pyInt?_digits hdne hddig, pySplit_three hcolonh hcolonm hcolons,
      pyFloat?_numeral hh, pyFloat?_numeral hm, pyFloat?_numeral hs,
      if_false, ite_false, if_true, ite_true]
    norm_num
    ring

theorem spec_C4_witness :
    _parse_time "5".data = .ok (numeralVal "5".data) ∧
    _parse_time "45:30".data = .ok (60 * numeralVal "45".data + numeralVal "30".data) ∧
    _parse_time "02:30:45".data =
      .ok (3600 * numeralVal "02".data + 60 * numeralVal "30".data +
        numeralVal "45".data) ∧
    _parse_time "1-12:30:00".data =
      .ok (86400 * (digitsVal "1".data : Rat) + 3600 * numeralVal "12".data +
        60 * numeralVal "30".data + numeralVal "00".data) :=
  ⟨spec_C4.1 _ (by decide),
    spec_C4.2.1 "45".data "30".data (by decide) (by decide),
    spec_C4.2.2.1 "02".data "30".data "45".data (by decide) (by decide) (by decide),
    spec_C4.2.2.2.1 "1".data "12".data "30".data "00".data (by decide) (by decide)
      (by decide) (by decide)⟩

/-- The size regex on a numeral followed by an upper-case suffix letter. -/
theorem memRegexMatch_suffix {w : Str} (hne : w ≠ [])
    (hall : w.all (fun x => x.isDigit || x = '.') = true) {C : Char}
    (hC : C = 'K' ∨ C = 'M' ∨ C = 'G' ∨ C = 'T') :
    memRegexMatch (w ++ [C]) = some (w, some C) := by
  unfold memRegexMatch
  simp only [List.getLast?_concat, List.dropLast_concat]
  rw [if_pos hC, if_pos ⟨hne, hall⟩]

/-- The size regex on a bare numeral. -/
theorem memRegexMatch_numeral {w : Str} (hw : isNumeralStr w = true) :
    memRegexMatch w = some (w, none) := by
  have hchars := (isNumeralStr_parts hw).1
  have hall : w.all (fun x => x.isDigit || x = '.') = true := by
    simp only [isNumeralStr, Bool.and_eq_true] at hw
    exact hw.1.1
  rcases List.eq_nil_or_concat w with rfl | ⟨u, lc, hw2⟩
  · simp [isNumeralStr] at hw
  · rw [List.concat_eq_append] at hw2
    subst hw2
    have hlc : lc.isDigit = true ∨ lc = '.' :=
      hchars lc (List.mem_append_right _ (List.mem_singleton_self lc))
    obtain ⟨_, _, _, _, _, hK, hM, hG, hT, _, _⟩ := numChar_facts hlc
    unfold memRegexMatch
    simp only [List.getLast?_concat]
    rw [if_neg (by rintro (rfl | rfl | rfl | rfl) <;> simp_all), if_pos hall]

/-- `_parse_memory` on a numeral with a (case-normalised) size suffix. -/
theorem parse_memory_suffix {w : Str} (hw : isNumeralStr w = true) {c : Char} {mult : Rat}
    (hcup : c.toUpper = 'K' ∨ c.toUpper = 'M' ∨ c.toUpper = 'G' ∨ c.toUpper = 'T')
    (hcns : pyIsSpace c = false) (hmul : memMultiplier (some c.toUpper) = mult) :
    _parse_memory (w ++ [c]) = .ok (numeralVal w * mult) := by
  have hchars := (isNumeralStr_parts hw).1
  obtain ⟨cd, hcd, _⟩ := (isNumeralStr_parts hw).2.2
  have hwne : w ≠ [] := List.ne_nil_of_mem hcd
  have hall : w.all (fun x => x.isDigit || x = '.') = true := by
    simp only [isNumeralStr, Bool.and_eq_true] at hw
    exact hw.1.1
  have hne : w ++ [c] ≠ [] := by simp
  have hstrip : pyStrip (w ++ [c]) = w ++ [c] := by
    apply pyStrip_eq_self
    intro x hx
    rcases List.mem_append.mp hx with hx | hx
    · exact (numChar_facts (hchars x hx)).2.1
    · rw [List.mem_singleton.mp hx]
      exact hcns
  have hupper : pyUpper (w ++ [c]) = w ++ [c.toUpper] := by
    unfold pyUpper
    rw [List.map_append]
    congr 1
    exact pyUpper_eq_self fun x hx => (numChar_facts (hchars x hx)).1
  simp only [_parse_memory, hne, hstrip, hupper,
    memRegexMatch_suffix hwne hall hcup, pyFloat?_numeral hw, hmul, if_false, ite_false]

/-- The suffix exponent named by the specification: `K/M/G/T`
(case-insensitively) select `1024^1 … 1024^4`. -/
def suffixExponent (c : Char) : Nat :=
  if c = 'K' ∨ c = 'k' then 1
  else if c = 'M' ∨ c = 'm' then 2
  else if c = 'G' ∨ c = 'g' then 3
  else if c = 'T' ∨ c = 't' then 4
  else 0

attribute [local semireducible] Rat.add Rat.mul Rat.inv Rat.sub in
/-- C5: a numeral followed by a `K/M/G/T` suffix (either case) parses to
`numeral × 1024^n` with `n ∈ {1,2,3,4}`; a bare numeral parses to its exact
value in bytes; the empty string parses to `0`. -/
theorem spec_C5 :
    (∀ w c, isNumeralStr w = true →
      (c = 'K' ∨ c = 'k' ∨ c = 'M' ∨ c = 'm' ∨ c = 'G' ∨ c = 'g' ∨
        c = 'T' ∨ c = 't') →
      _parse_memory (w ++ [c]) = .ok (numeralVal w * 1024 ^ suffixExponent c)) ∧
    (∀ w, isNumeralStr w = true → _parse_memory w = .ok (numeralVal w)) ∧
    _parse_memory [] = .ok 0 := by
  refine ⟨?_, ?_, by decide⟩
  · intro w c hw hc
    rcases hc with rfl | rfl | rfl | rfl | rfl | rfl | rfl | rfl <;>
      exact parse_memory_suffix hw (by decide) (by decide) (by decide)
  · intro w hw
    have hchars := (isNumeralStr_parts hw).1
    obtain ⟨cd, hcd, _⟩ := (isNumeralStr_parts hw).2.2
    have hwne : w ≠ [] := List.ne_nil_of_mem hcd
    have hstrip : pyStrip w = w :=
      pyStrip_eq_self fun x hx => (numChar_facts (hchars x hx)).2.1
    have hupper : pyUpper w = w :=
      pyUpper_eq_self fun x hx => (numChar_facts (hchars x hx)).1
    simp only [_parse_memory, hwne, hstrip, hupper, memRegexMatch_numeral hw,
      pyFloat?_numeral hw, if_false, ite_false]
    norm_num [memMultiplier]

theorem spec_C5_witness :
    _parse_memory ("512".data ++ ['M']) =
      .ok (numeralVal "512".data * 1024 ^ suffixExponent 'M') ∧
    _parse_memory ("4".data ++ ['g']) =
      .ok (numeralVal "4".data * 1024 ^ suffixExponent 'g') ∧
    _parse_memory "1073741824".data = .ok (numeralVal "1073741824".data) :=
  ⟨spec_C5.1 "512".data 'M' (by decide) (by decide),
    spec_C5.1 "4".data 'g' (by decide) (by decide),
    spec_C5.2.1 "1073741824".data (by decide)⟩

attribute [local semireducible] Rat.add Rat.mul Rat.inv Rat.sub in
/-- C10 (counterexample): with malformed (fewer than 11 fields) squeue
output the collector does not return `None`, but the consumption fields need
not stay zero — a usable sstat response still populates `cpu_time_total`
(here 3600 seconds from `01:00:00`). -/
theorem spec_C10_counterexample :
    (get_running_job_stats "9".data {} { stdout := "a|b".data, stderr := [], rc := 0 }
        (fun _ => { stdout := "x|01:00:00|4G|0|1".data, stderr := [], rc := 0 })).map
      (Option.map JobMetrics.cpu_time_total) = .ok (some 3600) ∧
    ¬ ((3600 : Rat) = 0) := by
  constructor
  · decide
  · norm_num

/-- C10 (amended): when the squeue call succeeds with non-empty output whose
line has fewer than 11 pipe-delimited fields, the live collector does not
return `None`: provided additionally that all three step-statistics attempts
return no usable line, it returns a `JobMetrics` that keeps every
identity/allocation/consumption default — only the job id, the `Running`
state and the update timestamp are set. -/
theorem spec_C10 (jobId : Str) (now : DateTime) (sq : CmdResult)
    (sstat : Str → CmdResult)
    (hrc : sq.rc = 0) (hne : pyStrip sq.stdout ≠ [])
    (hlen : (pySplit '|' (pyStrip sq.stdout)).length < 11)
    (hs : ∀ suf ∈ [([] : Str), ".batch".data, ".0".data],
      sstatUnusable (sstat (jobId ++ suf))) :
    get_running_job_stats jobId now sq sstat =
      .ok (some { job_id := jobId, state := .RUNNING, last_updated := some now }) := by
  have h1 : ¬(sq.rc ≠ 0 ∨ pyStrip sq.stdout = []) := by
    push_neg
    exact ⟨by rw [hrc], hne⟩
  have h2 : ¬ 11 ≤ (pySplit '|' (pyStrip sq.stdout)).length := not_le.mpr hlen
  simp only [get_running_job_stats, if_neg h1, if_neg h2, sstatTry_unusable _ hs,
    calculate_efficiency_init]

theorem spec_C10_witness :
    get_running_job_stats "9".data {} { stdout := "a|b".data, stderr := [], rc := 0 }
        (fun _ => { stdout := [], stderr := [], rc := 1 }) =
      .ok (some { job_id := "9".data, state := .RUNNING, last_updated := some {} }) :=
  spec_C10 _ _ _ _ (by decide) (by decide) (by decide)
    (by rintro suf hsuf; left; decide)

attribute [local semireducible] Rat.add Rat.mul Rat.inv Rat.sub in
/-- C3 (counterexample): with both a main record and a `.batch` record
present, a `.batch` record with fewer than 15 fields makes the collector
fall back to the *main* record for peak memory — here the main record's
`1G`, not the batch record's `2G`. -/
theorem spec_C3_counterexample :
    (get_completed_job_stats "7".data {}
        { stdout := ("7|nm|us|COMPLETED|d|e|f|00:10:00|01:00:00|1|4|1G|1G|00:01:00|00:02:00|debug|x|0:0" ++
            "\n7.batch|a|b|c|d|e|f|g|h|i|j|k|2G").data,
          stderr := [], rc := 0 }).map
      (Option.map JobMetrics.memory_used_max) = .ok (some 1073741824) ∧
    ¬ ((1073741824 : Rat) = 2 * 1024 ^ 3) := by
  constructor
  · decide
  · norm_num

/-- C3 (amended): for a successful accounting query whose lines contain
exactly one line with record id equal to the job id and exactly one with the
`.batch`-suffixed id — the job id itself not containing `.batch` — the
result is the build step over those two lines; when the batch line has at
least 15 fields, peak memory and CPU time come from its fields 12 and 14
while identity/allocation/time fields come from the main line.  With no
exact-match line the first returned line takes the main role.  A failed or
empty query, or a selected main line with fewer than 18 fields, yields
`none`. -/
theorem spec_C3 :
    (∀ jobId now res lines mainL batchL,
      pyIn ".batch".data jobId = false →
      res.rc = 0 →
      pyStrip res.stdout ≠ [] →
      pySplit '\n' (pyStrip res.stdout) = lines →
      lines.filter (fun l => decide (recordId l = jobId)) = [mainL] →
      lines.filter (fun l => decide (recordId l = jobId ++ ".batch".data)) = [batchL] →
      15 ≤ (pySplit '|' batchL).length →
      get_completed_job_stats jobId now res =
        buildCompleted jobId now (pySplit '|' mainL) (some (pySplit '|' batchL)) ∧
      (∀ m, get_completed_job_stats jobId now res = .ok (some m) →
        _parse_memory ((pySplit '|' batchL).getD 12 []) = .ok m.memory_used_max ∧
        _parse_cpu_time ((pySplit '|' batchL).getD 14 []) = .ok m.cpu_time_total ∧
        m.job_name = (pySplit '|' mainL).getD 1 [] ∧
        m.user = (pySplit '|' mainL).getD 2 [] ∧
        _parse_time ((pySplit '|' mainL).getD 7 []) = .ok m.elapsed_time ∧
        _parse_time ((pySplit '|' mainL).getD 8 []) = .ok m.time_limit ∧
        m.num_nodes = completedNumNodes (pySplit '|' mainL) ∧
        m.num_cpus = completedNumCpus (pySplit '|' mainL))) ∧
    (∀ jobId now res lines,
      pyIn ".batch".data jobId = false →
      res.rc = 0 →
      pyStrip res.stdout ≠ [] →
      pySplit '\n' (pyStrip res.stdout) = lines →
      lines.filter (fun l => decide (recordId l = jobId)) = [] →
      get_completed_job_stats jobId now res =
        buildCompleted jobId now (pySplit '|' (lines.headD []))
          ((lines.filter (fun l =>
            decide (recordId l = jobId ++ ".batch".data))).getLast?.map (pySplit '|'))) ∧
    (∀ jobId now res, res.rc ≠ 0 ∨ pyStrip res.stdout = [] →
      get_completed_job_stats jobId now res = .ok none) ∧
    (∀ jobId now res lines mainL,
      pyIn ".batch".data jobId = false →
      res.rc = 0 →
      pyStrip res.stdout ≠ [] →
      pySplit '\n' (pyStrip res.stdout) = lines →
      lines.filter (fun l => decide (recordId l = jobId)) = [mainL] →
      (pySplit '|' mainL).length < 18 →
      get_completed_job_stats jobId now res = .ok none) := by
  refine ⟨?_, ?_, ?_, ?_⟩
  · intro jobId now res lines mainL batchL hJ hrc hne hlines hf1 hf2 hb15
    have heq : get_completed_job_stats jobId now res =
        buildCompleted jobId now (pySplit '|' mainL) (some (pySplit '|' batchL)) := by
      rw [get_completed_eq_build jobId now res hrc hne, hlines,
        mainLineOf_single hJ hf1, selectBatch_single hJ hf2]
    refine ⟨heq, ?_⟩
    intro m hm
    rw [heq] at hm
    obtain ⟨h18, st, elapsed, tlimit, reqMem, memMax, cpuTot, hst, helapsed, htlimit,
      hreqMem, hmemMax, hcpuTot, hmEq⟩ := buildCompleted_ok hm
    have hsrc : batchOrMain (pySplit '|' mainL) (some (pySplit '|' batchL)) =
        pySplit '|' batchL := by
      simp only [batchOrMain]
      rw [if_pos hb15]
    rw [hsrc] at hmemMax hcpuTot
    obtain ⟨_, hjn, hu, _, hel, htl, hnn, hnc, _, _, _, hct, hmm2, _, _⟩ :=
      calculate_efficiency_preserves
        { job_id := jobId
          last_updated := some now
          job_name := (pySplit '|' mainL).getD 1 []
          user := (pySplit '|' mainL).getD 2 []
          state := st
          submit_time := _parse_datetime ((pySplit '|' mainL).getD 4 [])
          start_time := _parse_datetime ((pySplit '|' mainL).getD 5 [])
          end_time := _parse_datetime ((pySplit '|' mainL).getD 6 [])
          elapsed_time := elapsed
          time_limit := tlimit
          num_nodes := completedNumNodes (pySplit '|' mainL)
          num_cpus := completedNumCpus (pySplit '|' mainL)
          memory_requested := reqMem * (reqMemMult (pySplit '|' mainL) : Rat)
          partition := (pySplit '|' mainL).getD 15 []
          num_gpus := gresGpuCount (allocGresStr (pySplit '|' mainL)) 0
          memory_used_max := memMax
          cpu_time_total := cpuTot }
    rw [hmEq]
    exact ⟨by rw [hmm2]; exact hmemMax, by rw [hct]; exact hcpuTot, hjn, hu,
      by rw [hel]; exact helapsed, by rw [htl]; exact htlimit, hnn, hnc⟩
  · intro jobId now res lines hJ hrc hne hlines hf1
    rw [get_completed_eq_build jobId now res hrc hne, hlines,
      mainLineOf_of_no_match hJ hf1, selectMainBatch_eq jobId hJ]
  · intro jobId now res h
    unfold get_completed_job_stats
    rw [if_pos h]
  · intro jobId now res lines mainL hJ hrc hne hlines hf1 h18
    rw [get_completed_eq_build jobId now res hrc hne, hlines,
      mainLineOf_single hJ hf1]
    unfold buildCompleted
    rw [if_pos h18]

theorem spec_C3_witness :
    (get_completed_job_stats "7".data {}
        { stdout := ("7|a|b|C|d|e|f|1|2|1|4|1G|3G|9|8|p|x|0" ++
            "\n7.batch|q|w|e|r|t|y|u|i|o|p|a|2G|s|7").data,
          stderr := [], rc := 0 } =
      buildCompleted "7".data {}
        (pySplit '|' "7|a|b|C|d|e|f|1|2|1|4|1G|3G|9|8|p|x|0".data)
        (some (pySplit '|' "7.batch|q|w|e|r|t|y|u|i|o|p|a|2G|s|7".data))) ∧
    (get_completed_job_stats "8".data {}
        { stdout := "9|x".data, stderr := [], rc := 0 } =
      buildCompleted "8".data {} (pySplit '|' (["9|x".data].headD []))
        ((["9|x".data].filter (fun l =>
          decide (recordId l = "8".data ++ ".batch".data))).getLast?.map (pySplit '|'))) ∧
    (get_completed_job_stats "7".data {}
        { stdout := [], stderr := [], rc := 1 } = .ok none) ∧
    (get_completed_job_stats "7".data {}
        { stdout := "7|a".data, stderr := [], rc := 0 } = .ok none) :=
  ⟨(spec_C3.1 "7".data {} _
      ["7|a|b|C|d|e|f|1|2|1|4|1G|3G|9|8|p|x|0".data,
        "7.batch|q|w|e|r|t|y|u|i|o|p|a|2G|s|7".data]
      "7|a|b|C|d|e|f|1|2|1|4|1G|3G|9|8|p|x|0".data
      "7.batch|q|w|e|r|t|y|u|i|o|p|a|2G|s|7".data
      (by decide) (by decide) (by decide) (by decide) (by decide) (by decide)
      (by decide)).1,
    spec_C3.2.1 "8".data {} _ ["9|x".data]
      (by decide) (by decide) (by decide) (by decide) (by decide),
    spec_C3.2.2.1 "7".data {} _ (Or.inl (by decide)),
    spec_C3.2.2.2 "7".data {} _ ["7|a".data] "7|a".data
      (by decide) (by decide) (by decide) (by decide) (by decide) (by decide)⟩

attribute [local semireducible] Rat.add Rat.mul Rat.inv Rat.sub in
/-- C8: a requested-memory string ending in `n` has its parsed byte value
multiplied by the node count, one ending in `c` by the CPU count, before
being stored as `memory_requested`; in particular `"4Gn"` with two nodes
yields exactly `8 × 1024³` bytes. -/
theorem spec_C8 :
    (∀ jobId now res lines main w m,
      res.rc = 0 →
      pyStrip res.stdout ≠ [] →
      pySplit '\n' (pyStrip res.stdout) = lines →
      mainLineOf jobId lines = main →
      main.getD 11 [] = w ++ ['n'] →
      get_completed_job_stats jobId now res = .ok (some m) →
      ∃ v, _parse_memory w = .ok v ∧ m.memory_requested = v * (m.num_nodes : Rat)) ∧
    (∀ jobId now res lines main w m,
      res.rc = 0 →
      pyStrip res.stdout ≠ [] →
      pySplit '\n' (pyStrip res.stdout) = lines →
      mainLineOf jobId lines = main →
      main.getD 11 [] = w ++ ['c'] →
      get_completed_job_stats jobId now res = .ok (some m) →
      ∃ v, _parse_memory w = .ok v ∧ m.memory_requested = v * (m.num_cpus : Rat)) ∧
    ((get_completed_job_stats "1".data {}
        { stdout := "1|n|u|C|d|e|f|1|2|2|4|4Gn|1G|9|8|p|x|0".data,
          stderr := [], rc := 0 }).map
      (Option.map (fun m => (m.memory_requested, m.num_nodes))) =
      .ok (some (8 * 1024 ^ 3, 2))) := by
  have key : ∀ (jobId : Str) (now : DateTime) (res : CmdResult) (lines : List Str)
      (main : List Str) (m : JobMetrics),
      res.rc = 0 →
      pyStrip res.stdout ≠ [] →
      pySplit '\n' (pyStrip res.stdout) = lines →
      mainLineOf jobId lines = main →
      get_completed_job_stats jobId now res = .ok (some m) →
      ∃ v, _parse_memory (reqMemStr main) = .ok v ∧
        m.memory_requested = v * (reqMemMult main : Rat) ∧
        m.num_nodes = completedNumNodes main ∧ m.num_cpus = completedNumCpus main := by
    intro jobId now res lines main m hrc hne hlines hmain hm
    rw [get_completed_eq_build jobId now res hrc hne, hlines, hmain] at hm
    obtain ⟨h18, st, elapsed, tlimit, reqMem, memMax, cpuTot, hst, helapsed, htlimit,
      hreqMem, hmemMax, hcpuTot, hmEq⟩ := buildCompleted_ok hm
    obtain ⟨_, _, _, _, _, _, hnn, hnc, _, hmr, _, _, _, _, _⟩ :=
      calculate_efficiency_preserves
        { job_id := jobId
          last_updated := some now
          job_name := main.getD 1 []
          user := main.getD 2 []
          state := st
          submit_time := _parse_datetime (main.getD 4 [])
          start_time := _parse_datetime (main.getD 5 [])
          end_time := _parse_datetime (main.getD 6 [])
          elapsed_time := elapsed
          time_limit := tlimit
          num_nodes := completedNumNodes main
          num_cpus := completedNumCpus main
          memory_requested := reqMem * (reqMemMult main : Rat)
          partition := main.getD 15 []
          num_gpus := gresGpuCount (allocGresStr main) 0
          memory_used_max := memMax
          cpu_time_total :=
            cpuTot }
    refine ⟨reqMem, hreqMem, ?_, ?_, ?_⟩ <;> rw [hmEq]
    · rw [hmr]
    · rw [hnn]
    · rw [hnc]
  refine ⟨?_, ?_, by decide⟩
  · intro jobId now res lines main w m hrc hne hlines hmain hw hm
    obtain ⟨v, hv, hmr, hnn, _⟩ := key jobId now res lines main m hrc hne hlines hmain hm
    have hlast : (main.getD 11 []).getLast? = some 'n' := by
      rw [hw, List.getLast?_concat]
    have hstr : reqMemStr main = w := by
      unfold reqMemStr
      rw [if_pos hlast, hw, List.dropLast_concat]
    have hmult : reqMemMult main = completedNumNodes main := by
      unfold reqMemMult
      rw [if_pos hlast]
    refine ⟨v, by rw [← hstr]; exact hv, ?_⟩
    rw [hmr, hmult, hnn]
  · intro jobId now res lines main w m hrc hne hlines hmain hw hm
    obtain ⟨v, hv, hmr, _, hnc⟩ := key jobId now res lines main m hrc hne hlines hmain hm
    have hlast : (main.getD 11 []).getLast? = some 'c' := by
      rw [hw, List.getLast?_concat]
    have hstr : reqMemStr main = w := by
      unfold reqMemStr
      rw [if_neg (by rw [hlast]; simp), if_pos hlast, hw, List.dropLast_concat]
    have hmult : reqMemMult main = completedNumCpus main := by
      unfold reqMemMult
      rw [if_neg (by rw [hlast]; simp), if_pos hlast]
    refine ⟨v, by rw [← hstr]; exact hv, ?_⟩
    rw [hmr, hmult, hnc]

attribute [local semireducible] Rat.add Rat.mul Rat.inv Rat.sub in
theorem spec_C8_witness :
    (∃ v, _parse_memory "4G".data = .ok v ∧
      (8589934592 : Rat) = v * ((2 : Nat) : Rat)) ∧
    (∃ v, _parse_memory "4G".data = .ok v ∧
      (17179869184 : Rat) = v * ((4 : Nat) : Rat)) :=
  ⟨spec_C8.1 "1".data {}
      { stdout := "1|n|u|C|d|e|f|1|2|2|4|4Gn|1G|9|8|p|x|0".data, stderr := [], rc := 0 }
      ["1|n|u|C|d|e|f|1|2|2|4|4Gn|1G|9|8|p|x|0".data]
      (pySplit '|' "1|n|u|C|d|e|f|1|2|2|4|4Gn|1G|9|8|p|x|0".data) "4G".data
      { job_id := "1".data, job_name := "n".data, user := "u".data,
        state := .UNKNOWN, elapsed_time := 1, time_limit := 2,
        num_nodes := 2, num_cpus := 4, memory_requested := 8589934592,
        partition := "p".data, cpu_time_total := 8, cpu_efficiency := 100,
        memory_used_max := 1073741824, memory_efficiency := 25 / 2,
        last_updated := some {} }
      (by decide) (by decide) (by decide) (by decide) (by decide) (by decide),
    spec_C8.2.1 "1".data {}
      { stdout := "1|n|u|C|d|e|f|1|2|2|4|4Gc|1G|9|8|p|x|0".data, stderr := [], rc := 0 }
      ["1|n|u|C|d|e|f|1|2|2|4|4Gc|1G|9|8|p|x|0".data]
      (pySplit '|' "1|n|u|C|d|e|f|1|2|2|4|4Gc|1G|9|8|p|x|0".data) "4G".data
      { job_id := "1".data, job_name := "n".data, user := "u".data,
        state := .UNKNOWN, elapsed_time := 1, time_limit := 2,
        num_nodes := 2, num_cpus := 4, memory_requested := 17179869184,
        partition := "p".data, cpu_time_total := 8, cpu_efficiency := 100,
        memory_used_max := 1073741824, memory_efficiency := 25 / 4,
        last_updated := some {} }
      (by decide) (by decide) (by decide) (by decide) (by decide) (by decide)⟩
